import Mathlib

/-!
Verification of the AppASO transform stage (src/etl/transform.py,
src/etl/column_mapping.py, src/config/settings.py).

The pipeline is embedded shallowly: a pandas DataFrame becomes a list of
columns plus a list of rows (association lists from column name to cell),
cells are strings, integers, dates or an explicit missing marker (NaN/NaT),
and each pandas operation used by the source is modelled as a Lean function.
Dates are plain (year, month, day) triples; numeric cells are integers
(the pipeline only handles install / user counts and ranks).
-/

namespace AppASO

/-! ## Calendar dates -/

/-- A calendar date, as produced by the date parsers of the pipeline. -/
structure Date where
  year : Nat
  month : Nat
  day : Nat
deriving DecidableEq, Repr

/-- Gregorian leap-year rule, as used by datetime validation. -/
def isLeapYear (y : Nat) : Bool :=
  (y % 4 == 0 && y % 100 != 0) || y % 400 == 0

/-- Number of days of month `m` in year `y`. -/
def daysInMonth (y m : Nat) : Nat :=
  if m == 2 then (if isLeapYear y then 29 else 28)
  else if m == 4 || m == 6 || m == 9 || m == 11 then 30
  else 31

/-- Calendar validity, the check `pd.to_datetime` performs before
accepting a parsed (year, month, day) triple. -/
def Date.valid (d : Date) : Bool :=
  1 ≤ d.month && d.month ≤ 12 && 1 ≤ d.day && d.day ≤ daysInMonth d.year d.month
    && d.year ≤ 9999

/-- Smart constructor: a date is produced only when calendar-valid,
otherwise the parse yields NaT (modelled as `none`). -/
def mkDate (y m d : Nat) : Option Date :=
  if Date.valid ⟨y, m, d⟩ then some ⟨y, m, d⟩ else none

/-- Chronological comparison of dates (as pandas compares datetimes). -/
def Date.le (a b : Date) : Bool :=
  a.year < b.year
    || (a.year == b.year
        && (a.month < b.month || (a.month == b.month && a.day ≤ b.day)))

/-- Encoding of a date as a single natural number; on calendar-valid dates
this encoding is strictly monotone in chronological order. -/
def dateEnc (d : Date) : Nat :=
  (d.year * 100 + d.month) * 100 + d.day

/-! ## Digits and decimal strings -/

/-- The decimal digit character for `n < 10`. -/
def digitChar (n : Nat) : Char :=
  Char.ofNat (48 + n)

/-- Two-digit zero-padded decimal rendering (strftime `%d` / `%m`). -/
def pad2chars (n : Nat) : List Char :=
  [digitChar (n / 10 % 10), digitChar (n % 10)]

/-- Four-digit zero-padded decimal rendering (strftime `%Y`). -/
def pad4chars (n : Nat) : List Char :=
  [digitChar (n / 1000 % 10), digitChar (n / 100 % 10),
   digitChar (n / 10 % 10), digitChar (n % 10)]

/-- The value of a most-significant-first digit string. -/
def digitsToNat (cs : List Char) : Nat :=
  cs.foldl (fun a c => a * 10 + (c.toNat - 48)) 0

/-- A non-empty all-decimal-digit character list. -/
def allDigits (cs : List Char) : Bool :=
  !cs.isEmpty && cs.all Char.isDigit

/-- Decimal rendering of a natural number (fuel-driven recursion). -/
def natToCharsAux : Nat → Nat → List Char
  | 0, _ => []
  | fuel + 1, n =>
    if n < 10 then [digitChar n]
    else natToCharsAux fuel (n / 10) ++ [digitChar (n % 10)]

/-- Decimal rendering of a natural number. -/
def natToChars (n : Nat) : List Char :=
  natToCharsAux (n + 1) n

/-- How Python renders an integer cell under `astype(str)`. -/
def intToPyStr : Int → String
  | .ofNat n => String.mk (natToChars n)
  | .negSucc n => String.mk ('-' :: natToChars (n + 1))

/-! ## Python whitespace class and the numeric cleaner -/

/-- The code points matched by the regex class `\s` on Python 3 strings
(ASCII whitespace, the C1 separators, NBSP, and the Unicode space
separators, including U+202F narrow no-break space). -/
def pyIsSpace (c : Char) : Bool :=
  [9, 10, 11, 12, 13, 28, 29, 30, 31, 32, 133, 160, 5760,
   8192, 8193, 8194, 8195, 8196, 8197, 8198, 8199, 8200, 8201, 8202,
   8232, 8233, 8239, 8287, 12288].contains c.toNat

/-- `str.replace(r'\s+', '', regex=True)`: delete every whitespace-class
character of the string. -/
def stripSpaces (s : String) : String :=
  String.mk (s.toList.filter (fun c => !pyIsSpace c))

/-- Parse a digit string (with optional leading minus sign) as an integer;
`none` when the characters do not form an integer literal. -/
def toNumericChars : List Char → Option Int
  | '-' :: rest => if allDigits rest then some (-(digitsToNat rest : Int)) else none
  | cs => if allDigits cs then some (digitsToNat cs : Int) else none

/-! ## Splitting -/

/-- Accumulator-based splitting of a character list at a separator
predicate, keeping empty pieces (like Python `str.split(sep)`). -/
def splitAuxP (p : Char → Bool) : List Char → List Char → List (List Char)
  | [], acc => [acc.reverse]
  | c :: cs, acc =>
    if p c then acc.reverse :: splitAuxP p cs []
    else splitAuxP p cs (c :: acc)

/-- Split a character list at every character satisfying `p`,
keeping empty pieces. -/
def splitChars (p : Char → Bool) (cs : List Char) : List (List Char) :=
  splitAuxP p cs []

/-- Python `str.split()` with no argument: split at whitespace runs,
dropping empty pieces. -/
def pysplit (s : String) : List String :=
  ((splitChars pyIsSpace s.toList).filter (fun cs => !cs.isEmpty)).map String.mk

/-! ## Date parsing and formatting -/

/-- `pd.to_datetime(..., errors="coerce")` on the string shapes this
pipeline feeds it: `a/b/c` strings are parsed month-first, falling back to
day-first when the first field exceeds 12 (dateutil's behaviour), and
ISO `yyyy-mm-dd` strings are parsed as such; any other shape, and any
calendar-invalid combination, coerces to NaT (`none`). -/
def toDatetime (s : String) : Option Date :=
  match splitChars (· == '/') s.toList with
  | [p1, p2, p3] =>
    if allDigits p1 && p1.length ≤ 2 && allDigits p2 && p2.length ≤ 2
        && allDigits p3 && p3.length == 4 then
      if digitsToNat p1 ≤ 12 then
        mkDate (digitsToNat p3) (digitsToNat p1) (digitsToNat p2)
      else
        mkDate (digitsToNat p3) (digitsToNat p2) (digitsToNat p1)
    else none
  | _ =>
    match splitChars (· == '-') s.toList with
    | [q1, q2, q3] =>
      if allDigits q1 && q1.length == 4 && allDigits q2 && q2.length ≤ 2
          && allDigits q3 && q3.length ≤ 2 then
        mkDate (digitsToNat q1) (digitsToNat q2) (digitsToNat q3)
      else none
    | _ => none

/-- `pd.to_datetime(..., format="%d/%m/%Y", errors="coerce")`: a slash-
separated day / month / four-digit-year string, validated as a calendar
date. -/
def strptimeDDMMYYYY (s : String) : Option Date :=
  match splitChars (· == '/') s.toList with
  | [ds, ms, ys] =>
    if allDigits ds && ds.length ≤ 2 && allDigits ms && ms.length ≤ 2
        && allDigits ys && ys.length == 4 then
      mkDate (digitsToNat ys) (digitsToNat ms) (digitsToNat ds)
    else none
  | _ => none

/-- `.dt.strftime("%d/%m/%Y")` on a single date. -/
def strftimeDDMMYYYY (d : Date) : String :=
  String.mk (pad2chars d.day ++ '/' :: (pad2chars d.month ++ '/' :: pad4chars d.year))

/-! ## Cells, rows, frames -/

/-- One cell of a table: a raw string, an integer count, a parsed
datetime, or the explicit missing marker (NaN / NaT). -/
inductive Cell where
  | str (s : String)
  | num (n : Int)
  | date (d : Date)
  | missing
deriving DecidableEq, Repr

/-- NaN test on a cell. -/
def Cell.isna : Cell → Bool
  | .missing => true
  | _ => false

/-- `astype(str)` on one cell (pandas renders NaN as the string "nan"). -/
def cellToPyStr : Cell → String
  | .str s => s
  | .num n => intToPyStr n
  | .date d => strftimeDDMMYYYY d
  | .missing => "nan"

/-- `pd.to_numeric(errors="coerce")` on one (string) cell value. -/
def pdToNumeric (s : String) : Cell :=
  match toNumericChars s.toList with
  | some i => .num i
  | none => .missing

/-- A row: an association list from column name to cell value. -/
abbrev Row := List (String × Cell)

/-- Value of a row at a column; absent columns read as missing. -/
def getVal (r : Row) (c : String) : Cell :=
  (r.lookup c).getD .missing

/-- A DataFrame: an ordered column index plus the rows. -/
structure DataFrame where
  cols : List String
  rows : List Row
deriving DecidableEq, Repr

/-- Rebuild a row on exactly the given columns (pandas column alignment:
absent columns fill with NaN). -/
def projectRow (cols : List String) (r : Row) : Row :=
  cols.map (fun c => (c, getVal r c))

/-- Rename one key of a row according to a rename table; keys not in the
table are kept (exactly `DataFrame.rename`'s silent behaviour). -/
def renameKey (m : List (String × String)) (c : String) : String :=
  (m.lookup c).getD c

/-- Rename every key of a row. -/
def renameRow (m : List (String × String)) (r : Row) : Row :=
  r.map (fun kv => (renameKey m kv.1, kv.2))

/-- `df.rename(columns=m)`. -/
def DataFrame.rename (df : DataFrame) (m : List (String × String)) : DataFrame :=
  ⟨df.cols.map (renameKey m), df.rows.map (renameRow m)⟩

/-- One row of a `setCol` result: the row rebuilt on the new index with
column `c` set to `f` of the old row. -/
def setColRow (ncols : List String) (c : String) (f : Row → Cell) (r : Row) : Row :=
  ncols.map (fun k => (k, if k == c then f r else getVal r k))

/-- `df[c] = f(row)`: overwrite a column, or append it at the end of the
index when new; every row is rebuilt on the new index. -/
def DataFrame.setCol (df : DataFrame) (c : String) (f : Row → Cell) : DataFrame :=
  let ncols := if df.cols.contains c then df.cols else df.cols ++ [c]
  ⟨ncols, df.rows.map (setColRow ncols c f)⟩

/-- One row of a `mapCol` result: the cells under key `c` rewritten. -/
def mapColRow (c : String) (f : Cell → Cell) (r : Row) : Row :=
  r.map (fun kv => if kv.1 == c then (kv.1, f kv.2) else kv)

/-- `df[c] = df[c].apply(f)` style column rewrite in place. -/
def DataFrame.mapCol (df : DataFrame) (c : String) (f : Cell → Cell) : DataFrame :=
  ⟨df.cols, df.rows.map (mapColRow c f)⟩

/-- `pd.concat([a, b], ignore_index=True)`: union of the column indexes
(first frame's order, then the second's extras), rows aligned with NaN
fill. -/
def DataFrame.concat (a b : DataFrame) : DataFrame :=
  let ucols := a.cols ++ b.cols.filter (fun c => !a.cols.contains c)
  ⟨ucols, (a.rows ++ b.rows).map (projectRow ucols)⟩

/-- `df[cols]`: column selection; a requested column absent from the
index raises a KeyError naming the missing columns (and nothing else). -/
def DataFrame.select (df : DataFrame) (cols : List String) : Except String DataFrame :=
  if cols.all df.cols.contains then
    .ok ⟨cols, df.rows.map (projectRow cols)⟩
  else
    .error ("columns not in index: "
      ++ String.intercalate ", " (cols.filter (fun c => !df.cols.contains c)))

/-- Drop the rows having a missing value in one of the subset columns
(the row filter underlying `dropna(subset=...)`). -/
def DataFrame.filterNa (df : DataFrame) (subset : List String) : DataFrame :=
  ⟨df.cols, df.rows.filter (fun r => subset.all (fun c => !(getVal r c).isna))⟩

/-- `df.dropna(subset=cols)`: KeyError when a subset column is absent
from the index. -/
def DataFrame.dropna (df : DataFrame) (subset : List String) : Except String DataFrame :=
  if subset.all df.cols.contains then .ok (df.filterNa subset)
  else
    .error ("dropna: columns missing from frame: "
      ++ String.intercalate ", " (subset.filter (fun c => !df.cols.contains c)))

/-! ## Sorting by (Date, Platform) -/

/-- Sort key of the Date column: valid datetimes by chronological
encoding, NaT after every datetime (pandas puts NaT last). -/
def dateKey : Cell → Nat
  | .date d => dateEnc d
  | _ => 1000000000

/-- The Platform cell as a string (Platform cells are always strings in
this pipeline). -/
def platStr : Cell → String
  | .str s => s
  | _ => ""

/-- Code points of a string, for Python's code-point-lexicographic
string comparison. -/
def strCode (s : String) : List Nat :=
  s.toList.map Char.toNat

/-- Strict lexicographic order on code-point lists. -/
def natsLt : List Nat → List Nat → Bool
  | _, [] => false
  | [], _ :: _ => true
  | a :: as, b :: bs => a < b || (a == b && natsLt as bs)

/-- Python string `<=` via code points. -/
def pyStrLe (a b : String) : Bool :=
  strCode a == strCode b || natsLt (strCode a) (strCode b)

/-- Row comparison used by `sort_values(["Date", "Platform"])`: dates
chronologically with NaT last, ties broken by the Platform string. -/
def rowLe (r1 r2 : Row) : Bool :=
  dateKey (getVal r1 "Date") < dateKey (getVal r2 "Date")
    || (dateKey (getVal r1 "Date") == dateKey (getVal r2 "Date")
        && pyStrLe (platStr (getVal r1 "Platform")) (platStr (getVal r2 "Platform")))

/-- Insert a row into an already-sorted list of rows, after every row
that is `rowLe`-below it (the insertion step of a stable sort). -/
def insertRow (x : Row) : List Row → List Row
  | [] => [x]
  | y :: ys => if rowLe x y then x :: y :: ys else y :: insertRow x ys

/-- A stable ascending sort of the rows by `rowLe`. -/
def sortRows : List Row → List Row
  | [] => []
  | x :: xs => insertRow x (sortRows xs)

/-- `df.sort_values(["Date", "Platform"]).reset_index(drop=True)`:
a stable ascending sort of the rows. -/
def DataFrame.sortValues (df : DataFrame) : DataFrame :=
  ⟨df.cols, sortRows df.rows⟩

/-! ## Column mapper (src/etl/column_mapping.py) -/

/-- `ColumnMapper.STANDARD_COLUMNS`. -/
def STANDARD_COLUMNS : List (String × List String) :=
  [("keywords", ["Date", "Rank_1", "Rank_2_3", "Rank_4_10", "Rank_11_30",
                 "Rank_31_100", "Rank_100_Plus", "Platform", "Stage"]),
   ("installs", ["Date", "Installs", "Platform", "Stage"]),
   ("users", ["Date", "Active_Users", "Platform", "Notes", "Stage"])]

/-- `ColumnMapper.get_columns_to_keep`: dictionary `.get` with an empty
list as the default for an unknown data type. -/
def getColumnsToKeep (dataType : String) : List String :=
  (STANDARD_COLUMNS.lookup dataType).getD []

/-- `ColumnMapper.get_keywords_mapping`: one shared table for every
platform argument. -/
def getKeywordsMapping (platform : String) : List (String × String) :=
  [("DateTime", "Date"), ("Rank 1", "Rank_1"), ("Rank 2 - 3", "Rank_2_3"),
   ("Rank 4 - 10", "Rank_4_10"), ("Rank 11-30", "Rank_11_30"),
   ("Rank 31-100", "Rank_31_100"), ("Rank 100+", "Rank_100_Plus")]

/-- `ColumnMapper.get_installs_mapping`: Apple's table for "Apple",
Google's table for every other platform argument. -/
def getInstallsMapping (platform : String) : List (String × String) :=
  if platform == "Apple" then
    [("Date", "Date"), ("Installs Apple", "Installs")]
  else
    [("Date", "Date"), ("Installs Google Play", "Installs")]

/-- `ColumnMapper.get_users_mapping`: Apple's table for "Apple",
Google's table for every other platform argument. -/
def getUsersMapping (platform : String) : List (String × String) :=
  if platform == "Apple" then
    [("Nom", "Date"), ("Courses U : Magasin en ligne", "Active_Users")]
  else
    [("Date", "Date"),
     ("Utilisateurs actifs par mois (UAM) (Utilisateurs uniques, Par intervalle, Quotidiennes)\u00A0: Tous les pays/régions",
      "Active_Users"),
     ("Notes", "Notes")]

/-! ## Field normalizers of the transformer -/

/-- `settings.AGENCY_START_DATE = "2025-07-15"`, parsed once by the
transformer's constructor. -/
def agencyStartDate : Date :=
  ⟨2025, 7, 15⟩

/-- The fixed French month-abbreviation table of `_parse_french_dates`. -/
def frenchMonths : List (String × String) :=
  [("janv", "01"), ("févr", "02"), ("mars", "03"), ("avr", "04"),
   ("mai", "05"), ("juin", "06"), ("juil", "07"), ("août", "08"),
   ("sept", "09"), ("oct", "10"), ("nov", "11"), ("déc", "12")]

/-- `parse_single_date` inside `_parse_french_dates`: strip periods,
split at whitespace; on exactly three tokens, build "year-month-day" with
the month looked up in the table under the default "01", the day
zero-filled to width 2; otherwise yield `None`. -/
def parseSingleFrenchDate (dateStr : String) : Option String :=
  let parts := pysplit (String.mk (dateStr.toList.filter (fun c => !(c == '.'))))
  match parts with
  | [p0, p1, p2] =>
    some (p2 ++ "-" ++ (frenchMonths.lookup p1).getD "01" ++ "-"
      ++ (if p0.toList.length < 2 then "0" ++ p0 else p0))
  | _ => none

/-- `_parse_french_dates` on one cell: `parse_single_date` over
`str(cell)`, then `pd.to_datetime(errors="coerce")`. -/
def parseFrenchCell (c : Cell) : Option Date :=
  match parseSingleFrenchDate (cellToPyStr c) with
  | some s => toDatetime s
  | none => none

/-- `pd.to_datetime(col, errors="coerce")` on one cell: strings are
parsed, datetimes pass through, everything else coerces to NaT. -/
def toDatetimeCell : Cell → Cell
  | .str s =>
    match toDatetime s with
    | some d => .date d
    | none => .missing
  | .date d => .date d
  | _ => .missing

/-- `.dt.strftime("%d/%m/%Y")` on one cell (NaT renders as NaN). -/
def strftimeCell : Cell → Cell
  | .date d => .str (strftimeDDMMYYYY d)
  | _ => .missing

/-- The composite Installs / Active_Users cleaner of the transformer:
`astype(str)`, strip every whitespace-class character, then
`pd.to_numeric(errors="coerce")`. -/
def cleanNumericCell (c : Cell) : Cell :=
  pdToNumeric (stripSpaces (cellToPyStr c))

/-- The Stage cell computed by `_add_agency_stage` from a canonical-form
Date cell: re-parse with format `%d/%m/%Y`, compare with the agency start
date (`x >= start` is False for NaT). -/
def stageOfCell (c : Cell) : Cell :=
  match (match c with | .str s => strptimeDDMMYYYY s | _ => none) with
  | some d => if Date.le agencyStartDate d then .str "Avec-Agence" else .str "Pré-Agence"
  | none => .str "Pré-Agence"

/-- `DataTransformer._add_agency_stage`. -/
def addAgencyStage (df : DataFrame) : DataFrame :=
  if df.cols.contains "Date" then
    df.setCol "Stage" (fun r => stageOfCell (getVal r "Date"))
  else df

/-- `DataTransformer._handle_nulls`: drop the rows with a null Date. -/
def handleNulls (df : DataFrame) : DataFrame :=
  if df.cols.contains "Date" then df.filterNa ["Date"] else df

/-! ## The three per-data-type pipelines -/

/-- `DataTransformer._transform_keywords`. -/
def transformKeywords (appleDf googleDf : DataFrame) : Except String DataFrame := do
  let appleClean := (appleDf.rename (getKeywordsMapping "Apple")).setCol "Platform"
    (fun _ => .str "Apple")
  let googleClean := (googleDf.rename (getKeywordsMapping "Google")).setCol "Platform"
    (fun _ => .str "Google")
  let combined := appleClean.concat googleClean
  let combined ← combined.select ((getColumnsToKeep "keywords").filter (fun c => !(c == "Stage")))
  let combined := combined.mapCol "Date" toDatetimeCell
  let combined := combined.sortValues
  let combined := combined.mapCol "Date" strftimeCell
  let combined := addAgencyStage combined
  let combined := handleNulls combined
  return combined

/-- `DataTransformer._transform_installs`. -/
def transformInstalls (appleDf googleDf : DataFrame) : Except String DataFrame := do
  let appleClean := (appleDf.rename (getInstallsMapping "Apple")).setCol "Platform"
    (fun _ => .str "Apple")
  let googleClean := (googleDf.rename (getInstallsMapping "Google")).setCol "Platform"
    (fun _ => .str "Google")
  let combined := appleClean.concat googleClean
  let combined ← combined.select ((getColumnsToKeep "installs").filter (fun c => !(c == "Stage")))
  let combined := combined.mapCol "Installs" (fun c => .str (stripSpaces (cellToPyStr c)))
  let combined := combined.mapCol "Installs"
    (fun c => match c with | .str s => pdToNumeric s | c => c)
  let combined := combined.mapCol "Date" toDatetimeCell
  let combined := combined.sortValues
  let combined := combined.mapCol "Date" strftimeCell
  let combined := addAgencyStage combined
  let combined := handleNulls combined
  return combined

/-- `DataTransformer._clean_apple_users`: rename, skip the two leading
metadata rows (`iloc[2:]`), drop rows with missing Date or Active_Users,
then set Platform and an empty Notes column. -/
def cleanAppleUsers (df : DataFrame) : Except String DataFrame := do
  let dfMapped := df.rename (getUsersMapping "Apple")
  let dfClean : DataFrame := ⟨dfMapped.cols, dfMapped.rows.drop 2⟩
  let dfClean ← dfClean.dropna ["Date", "Active_Users"]
  let dfClean := dfClean.setCol "Platform" (fun _ => .str "Apple")
  let dfClean := dfClean.setCol "Notes" (fun _ => .str "")
  return dfClean

/-- `DataTransformer._clean_google_users`: rename, select the three
needed columns, clean Active_Users numerically, drop rows with missing
Date or Active_Users, parse the Date column with the French-locale
parser, fill missing Notes with "", and set Platform. -/
def cleanGoogleUsers (df : DataFrame) : Except String DataFrame := do
  let dfMapped := df.rename (getUsersMapping "Google")
  let dfClean ← dfMapped.select ["Date", "Active_Users", "Notes"]
  let dfClean := dfClean.mapCol "Active_Users" (fun c => .str (stripSpaces (cellToPyStr c)))
  let dfClean := dfClean.mapCol "Active_Users"
    (fun c => match c with | .str s => pdToNumeric s | c => c)
  let dfClean ← dfClean.dropna ["Date", "Active_Users"]
  let dfClean := dfClean.mapCol "Date"
    (fun c => match parseFrenchCell c with | some d => .date d | none => .missing)
  let dfClean := dfClean.mapCol "Notes" (fun c => if c.isna then .str "" else c)
  let dfClean := dfClean.setCol "Platform" (fun _ => .str "Google")
  return dfClean

/-- `DataTransformer._transform_users`. -/
def transformUsers (appleDf googleDf : DataFrame) : Except String DataFrame := do
  let appleClean ← cleanAppleUsers appleDf
  let googleClean ← cleanGoogleUsers googleDf
  let combined := appleClean.concat googleClean
  let combined ← combined.select ((getColumnsToKeep "users").filter (fun c => !(c == "Stage")))
  let combined ← combined.dropna ["Date", "Active_Users"]
  let combined := combined.mapCol "Date" toDatetimeCell
  let combined := combined.sortValues
  let combined := combined.mapCol "Date" strftimeCell
  let combined := addAgencyStage combined
  let combined := handleNulls combined
  return combined

/-- The six raw tables of one run, keyed by (data type, platform). -/
structure RawData where
  keywordsApple : DataFrame
  keywordsGoogle : DataFrame
  installsApple : DataFrame
  installsGoogle : DataFrame
  usersApple : DataFrame
  usersGoogle : DataFrame
deriving DecidableEq, Repr

/-- `DataTransformer.transform_all_data`: the three pipelines run in
sequence; any exception propagates and aborts the remaining data types. -/
def transformAllData (raw : RawData) : Except String (DataFrame × DataFrame × DataFrame) := do
  let kw ← transformKeywords raw.keywordsApple raw.keywordsGoogle
  let ins ← transformInstalls raw.installsApple raw.installsGoogle
  let us ← transformUsers raw.usersApple raw.usersGoogle
  return (kw, ins, us)

/-! ## Lemmas: row lookups -/

theorem lookup_keyProj (cols : List String) (g : String → Cell) (k : String) :
    ((cols.map (fun c => (c, g c))).lookup k)
      = if k ∈ cols then some (g k) else none := by
  induction cols with
  | nil => simp
  | cons c cs ih =>
    by_cases h : k = c
    · subst h
      simp [List.lookup]
    · have hb : (k == c) = false := by simpa using h
      simp [List.lookup, hb, ih, h]

theorem getVal_keyProj (cols : List String) (g : String → Cell) (k : String) :
    getVal (cols.map (fun c => (c, g c))) k
      = if k ∈ cols then g k else .missing := by
  unfold getVal
  rw [lookup_keyProj]
  by_cases h : k ∈ cols <;> simp [h]

theorem keys_keyProj (cols : List String) (g : String → Cell) :
    (cols.map (fun c => (c, g c))).map Prod.fst = cols := by
  induction cols with
  | nil => rfl
  | cons c cs ih => simpa using ih

theorem projectRow_eq_keyProj (cols : List String) (r : Row) :
    projectRow cols r = cols.map (fun c => (c, getVal r c)) := rfl

theorem setColRow_eq_keyProj (ncols : List String) (c : String) (f : Row → Cell) (r : Row) :
    setColRow ncols c f r
      = ncols.map (fun k => (k, if k == c then f r else getVal r k)) := rfl

theorem lookup_mapColRow (c : String) (f : Cell → Cell) (r : Row) (k : String) :
    ((mapColRow c f r).lookup k)
      = if k = c then (r.lookup k).map f else r.lookup k := by
  induction r with
  | nil => simp [mapColRow]
  | cons kv tl ih =>
    obtain ⟨k0, v⟩ := kv
    show (List.lookup k
      ((if (k0 == c) = true then (k0, f v) else (k0, v)) :: mapColRow c f tl)) = _
    by_cases hc : (k0 == c) = true
    · rw [if_pos hc]
      have hc2 : k0 = c := by simpa using hc
      subst hc2
      by_cases hk : k = k0
      · subst hk
        simp [List.lookup]
      · have hk2 : (k == k0) = false := by simpa using hk
        simp [List.lookup, hk2, ih, hk]
    · rw [if_neg hc]
      have hc2 : ¬ k0 = c := by simpa using hc
      by_cases hk : k = k0
      · subst hk
        have : ¬ k = c := hc2
        simp [List.lookup, this]
      · have hk2 : (k == k0) = false := by simpa using hk
        simp [List.lookup, hk2, ih]

theorem getVal_mapColRow_ne (c : String) (f : Cell → Cell) (r : Row) (k : String)
    (h : ¬ k = c) :
    getVal (mapColRow c f r) k = getVal r k := by
  unfold getVal
  rw [lookup_mapColRow, if_neg h]

theorem getVal_mapColRow_eq (c : String) (f : Cell → Cell) (r : Row) :
    getVal (mapColRow c f r) c = ((r.lookup c).map f).getD .missing := by
  unfold getVal
  rw [lookup_mapColRow, if_pos rfl]

theorem keys_mapColRow (c : String) (f : Cell → Cell) (r : Row) :
    (mapColRow c f r).map Prod.fst = r.map Prod.fst := by
  induction r with
  | nil => rfl
  | cons kv tl ih =>
    obtain ⟨k0, v⟩ := kv
    show ((if (k0 == c) = true then (k0, f v) else (k0, v)) :: mapColRow c f tl).map Prod.fst = _
    by_cases hc : (k0 == c) = true
    · rw [if_pos hc]
      simpa using ih
    · rw [if_neg hc]
      simpa using ih

/-! ## Lemmas: digits, padding, and the strftime / strptime round trip -/

theorem digitChar_toNat (n : Nat) (h : n < 10) : (digitChar n).toNat = 48 + n := by
  interval_cases n <;> decide

theorem digitChar_isDigit (n : Nat) (h : n < 10) : (digitChar n).isDigit = true := by
  interval_cases n <;> decide

theorem digitChar_ne_slash (n : Nat) (h : n < 10) : ((digitChar n) == '/') = false := by
  interval_cases n <;> decide

theorem pad2_allDigits (n : Nat) : allDigits (pad2chars n) = true := by
  simp [allDigits, pad2chars, List.all,
    digitChar_isDigit _ (Nat.mod_lt _ (by omega))]

theorem pad4_allDigits (n : Nat) : allDigits (pad4chars n) = true := by
  simp [allDigits, pad4chars, List.all,
    digitChar_isDigit _ (Nat.mod_lt _ (by omega))]

theorem pad2_no_slash (n : Nat) : ∀ c ∈ pad2chars n, (c == '/') = false := by
  intro c hc
  simp only [pad2chars, List.mem_cons, List.mem_singleton, List.not_mem_nil] at hc
  rcases hc with h | h | h
  · subst h; exact digitChar_ne_slash _ (Nat.mod_lt _ (by omega))
  · subst h; exact digitChar_ne_slash _ (Nat.mod_lt _ (by omega))
  · cases h

theorem pad4_no_slash (n : Nat) : ∀ c ∈ pad4chars n, (c == '/') = false := by
  intro c hc
  simp only [pad4chars, List.mem_cons, List.mem_singleton, List.not_mem_nil] at hc
  rcases hc with h | h | h | h | h
  · subst h; exact digitChar_ne_slash _ (Nat.mod_lt _ (by omega))
  · subst h; exact digitChar_ne_slash _ (Nat.mod_lt _ (by omega))
  · subst h; exact digitChar_ne_slash _ (Nat.mod_lt _ (by omega))
  · subst h; exact digitChar_ne_slash _ (Nat.mod_lt _ (by omega))
  · cases h

theorem digitsToNat_pad2 (n : Nat) (h : n < 100) : digitsToNat (pad2chars n) = n := by
  have h1 : n / 10 % 10 < 10 := Nat.mod_lt _ (by omega)
  have h2 : n % 10 < 10 := Nat.mod_lt _ (by omega)
  simp only [digitsToNat, pad2chars, List.foldl,
    digitChar_toNat _ h1, digitChar_toNat _ h2]
  omega

theorem digitsToNat_pad4 (n : Nat) (h : n < 10000) : digitsToNat (pad4chars n) = n := by
  have h1 : n / 1000 % 10 < 10 := Nat.mod_lt _ (by omega)
  have h2 : n / 100 % 10 < 10 := Nat.mod_lt _ (by omega)
  have h3 : n / 10 % 10 < 10 := Nat.mod_lt _ (by omega)
  have h4 : n % 10 < 10 := Nat.mod_lt _ (by omega)
  simp only [digitsToNat, pad4chars, List.foldl,
    digitChar_toNat _ h1, digitChar_toNat _ h2, digitChar_toNat _ h3, digitChar_toNat _ h4]
  omega

theorem splitAuxP_no_sep (p : Char → Bool) (xs : List Char) :
    ∀ acc, (∀ c ∈ xs, p c = false) → splitAuxP p xs acc = [acc.reverse ++ xs] := by
  induction xs with
  | nil => intro acc _; simp [splitAuxP]
  | cons c cs ih =>
    intro acc h
    have hc : p c = false := h c (by simp)
    rw [splitAuxP, hc]
    simp only [Bool.false_eq_true, if_false]
    rw [ih (c :: acc) (fun a ha => h a (by simp [ha]))]
    simp

theorem splitAuxP_sep_append (p : Char → Bool) (xs : List Char) (c : Char) (rest : List Char)
    (hc : p c = true) :
    ∀ acc, (∀ a ∈ xs, p a = false) →
      splitAuxP p (xs ++ c :: rest) acc = (acc.reverse ++ xs) :: splitAuxP p rest [] := by
  induction xs with
  | nil => intro acc _; simp [splitAuxP, hc]
  | cons x xs ih =>
    intro acc h
    have hx : p x = false := h x (by simp)
    rw [List.cons_append, splitAuxP, hx]
    simp only [Bool.false_eq_true, if_false]
    rw [ih (x :: acc) (fun a ha => h a (by simp [ha]))]
    simp

theorem strftime_toList (d : Date) :
    (strftimeDDMMYYYY d).toList
      = pad2chars d.day ++ '/' :: (pad2chars d.month ++ '/' :: pad4chars d.year) := rfl

theorem splitChars_strftime (d : Date) :
    splitChars (· == '/') (strftimeDDMMYYYY d).toList
      = [pad2chars d.day, pad2chars d.month, pad4chars d.year] := by
  rw [strftime_toList]
  unfold splitChars
  rw [splitAuxP_sep_append _ _ _ _ (by decide) [] (pad2_no_slash d.day)]
  rw [splitAuxP_sep_append _ _ _ _ (by decide) [] (pad2_no_slash d.month)]
  rw [splitAuxP_no_sep _ _ [] (pad4_no_slash d.year)]
  simp

theorem daysInMonth_le_31 (y m : Nat) : daysInMonth y m ≤ 31 := by
  unfold daysInMonth
  split
  · split <;> omega
  · split <;> omega

theorem valid_bounds (d : Date) (h : d.valid = true) :
    1 ≤ d.month ∧ d.month ≤ 12 ∧ 1 ≤ d.day ∧ d.day ≤ 31 ∧ d.year ≤ 9999 := by
  have h31 := daysInMonth_le_31 d.year d.month
  simp only [Date.valid, Bool.and_eq_true, decide_eq_true_eq] at h
  omega

theorem pad2_length (n : Nat) : (pad2chars n).length = 2 := rfl

theorem pad4_length (n : Nat) : (pad4chars n).length = 4 := rfl

theorem strptime_strftime (d : Date) (h : d.valid = true) :
    strptimeDDMMYYYY (strftimeDDMMYYYY d) = some d := by
  obtain ⟨h1, h2, h3, h4, h5⟩ := valid_bounds d h
  unfold strptimeDDMMYYYY
  rw [splitChars_strftime]
  simp only [pad2_allDigits, pad4_allDigits, pad2_length, pad4_length]
  norm_num
  rw [digitsToNat_pad4 _ (by omega), digitsToNat_pad2 _ (by omega),
    digitsToNat_pad2 _ (by omega)]
  have he : (⟨d.year, d.month, d.day⟩ : Date) = d := rfl
  unfold mkDate
  rw [he, if_pos h]

/-! ## Lemmas: the sort comparison is total and transitive -/

theorem natsLt_trans : ∀ (a b c : List Nat),
    natsLt a b = true → natsLt b c = true → natsLt a c = true := by
  intro a
  induction a with
  | nil =>
    intro b c hab hbc
    cases b with
    | nil => simp [natsLt] at hab
    | cons y ys =>
      cases c with
      | nil => simp [natsLt] at hbc
      | cons z zs => simp [natsLt]
  | cons x xs ih =>
    intro b c hab hbc
    cases b with
    | nil => simp [natsLt] at hab
    | cons y ys =>
      cases c with
      | nil => simp [natsLt] at hbc
      | cons z zs =>
        simp only [natsLt, Bool.or_eq_true, Bool.and_eq_true, beq_iff_eq,
          decide_eq_true_eq] at hab hbc ⊢
        rcases hab with h1 | ⟨h1, h2⟩ <;> rcases hbc with h3 | ⟨h3, h4⟩
        · left; omega
        · left; omega
        · left; omega
        · right; exact ⟨by omega, ih ys zs h2 h4⟩

theorem natsLt_trichotomy : ∀ (a b : List Nat),
    natsLt a b = true ∨ a = b ∨ natsLt b a = true := by
  intro a
  induction a with
  | nil =>
    intro b
    cases b with
    | nil => right; left; rfl
    | cons y ys => left; simp [natsLt]
  | cons x xs ih =>
    intro b
    cases b with
    | nil => right; right; simp [natsLt]
    | cons y ys =>
      rcases Nat.lt_trichotomy x y with h | h | h
      · left; simp [natsLt, h]
      · subst h
        rcases ih ys with h2 | h2 | h2
        · left; simp [natsLt, h2]
        · subst h2; right; left; rfl
        · right; right; simp [natsLt, h2]
      · right; right; simp [natsLt, h]

theorem pyStrLe_total (a b : String) : pyStrLe a b = true ∨ pyStrLe b a = true := by
  unfold pyStrLe
  rcases natsLt_trichotomy (strCode a) (strCode b) with h | h | h
  · left; simp [h]
  · left; simp [h]
  · right; simp [h]

theorem pyStrLe_trans (a b c : String)
    (h1 : pyStrLe a b = true) (h2 : pyStrLe b c = true) : pyStrLe a c = true := by
  unfold pyStrLe at h1 h2 ⊢
  simp only [Bool.or_eq_true, beq_iff_eq] at h1 h2 ⊢
  rcases h1 with h1 | h1 <;> rcases h2 with h2 | h2
  · left; rw [h1, h2]
  · right; rw [h1]; exact h2
  · right; rw [← h2]; exact h1
  · right; exact natsLt_trans _ _ _ h1 h2

theorem rowLe_trans (a b c : Row)
    (h1 : rowLe a b = true) (h2 : rowLe b c = true) : rowLe a c = true := by
  unfold rowLe at h1 h2 ⊢
  simp only [Bool.or_eq_true, Bool.and_eq_true, beq_iff_eq, decide_eq_true_eq] at h1 h2 ⊢
  rcases h1 with h1 | ⟨h1, h1p⟩ <;> rcases h2 with h2 | ⟨h2, h2p⟩
  · left; omega
  · left; omega
  · left; omega
  · right; exact ⟨by omega, pyStrLe_trans _ _ _ h1p h2p⟩

theorem rowLe_total (a b : Row) : (rowLe a b || rowLe b a) = true := by
  unfold rowLe
  simp only [Bool.or_eq_true, Bool.and_eq_true, beq_iff_eq, decide_eq_true_eq]
  rcases Nat.lt_trichotomy (dateKey (getVal a "Date")) (dateKey (getVal b "Date"))
    with h | h | h
  · left; left; omega
  · rcases pyStrLe_total (platStr (getVal a "Platform")) (platStr (getVal b "Platform"))
      with hp | hp
    · left; right; exact ⟨h, hp⟩
    · right; right; exact ⟨h.symm, hp⟩
  · right; left; omega

theorem insertRow_perm (x : Row) (l : List Row) : List.Perm (insertRow x l) (x :: l) := by
  induction l with
  | nil => exact List.Perm.refl _
  | cons y ys ih =>
    unfold insertRow
    split
    · exact List.Perm.refl _
    · exact ((ih.cons y).trans (List.Perm.swap x y ys))

theorem sortRows_perm (l : List Row) : List.Perm (sortRows l) l := by
  induction l with
  | nil => exact List.Perm.refl _
  | cons x xs ih =>
    exact (insertRow_perm x (sortRows xs)).trans (ih.cons x)

theorem pairwise_insertRow (x : Row) (l : List Row)
    (hl : l.Pairwise (fun a b => rowLe a b = true)) :
    (insertRow x l).Pairwise (fun a b => rowLe a b = true) := by
  induction l with
  | nil => simp [insertRow]
  | cons y ys ih =>
    obtain ⟨hy, hys⟩ := List.pairwise_cons.1 hl
    unfold insertRow
    by_cases h : rowLe x y = true
    · rw [if_pos h]
      refine List.pairwise_cons.2 ⟨?_, hl⟩
      intro z hz
      rcases List.mem_cons.1 hz with rfl | hz
      · exact h
      · exact rowLe_trans _ _ _ h (hy z hz)
    · rw [if_neg h]
      have hyx : rowLe y x = true := by
        rcases Bool.or_eq_true_iff.1 (rowLe_total x y) with h2 | h2
        · exact absurd h2 h
        · exact h2
      refine List.pairwise_cons.2 ⟨?_, ih hys⟩
      intro z hz
      rcases List.mem_cons.1 ((insertRow_perm x ys).mem_iff.1 hz) with rfl | hz2
      · exact hyx
      · exact hy z hz2

theorem sortRows_pairwise (l : List Row) :
    (sortRows l).Pairwise (fun a b => rowLe a b = true) := by
  induction l with
  | nil => simp [sortRows]
  | cons x xs ih => exact pairwise_insertRow x (sortRows xs) ih

/-! ## Lemmas: parsers produce calendar-valid dates -/

theorem mkDate_valid (y m dd : Nat) (d : Date) (h : mkDate y m dd = some d) :
    d.valid = true ∧ d = ⟨y, m, dd⟩ := by
  unfold mkDate at h
  split at h
  · rename_i hv
    cases h
    exact ⟨hv, rfl⟩
  · cases h

theorem toDatetime_valid (s : String) (d : Date) (h : toDatetime s = some d) :
    d.valid = true := by
  unfold toDatetime at h
  split at h
  · split at h
    · split at h
      · exact (mkDate_valid _ _ _ _ h).1
      · exact (mkDate_valid _ _ _ _ h).1
    · cases h
  · split at h
    · split at h
      · exact (mkDate_valid _ _ _ _ h).1
      · cases h
    · cases h

theorem parseFrenchCell_valid (c : Cell) (d : Date) (h : parseFrenchCell c = some d) :
    d.valid = true := by
  unfold parseFrenchCell at h
  split at h
  · exact toDatetime_valid _ _ h
  · cases h

/-! ## Date-cell well-formedness (pandas datetimes are valid by construction) -/

/-- A cell is date-well-formed when, if it is a datetime at all, it is a
calendar-valid one; pandas cannot represent an invalid Timestamp, so every
raw table satisfies this. -/
def Cell.dateOk : Cell → Bool
  | .date dd => dd.valid
  | _ => true

/-- All cell values of a row are date-well-formed. -/
def rowDatesOk (r : Row) : Bool :=
  r.all (fun kv => kv.2.dateOk)

/-- All cells of a frame are date-well-formed. -/
def DataFrame.datesOk (df : DataFrame) : Bool :=
  df.rows.all rowDatesOk

/-- All six raw tables are date-well-formed. -/
def RawData.datesOk (raw : RawData) : Bool :=
  raw.keywordsApple.datesOk && raw.keywordsGoogle.datesOk
    && raw.installsApple.datesOk && raw.installsGoogle.datesOk
    && raw.usersApple.datesOk && raw.usersGoogle.datesOk

theorem lookup_mem {α β : Type} [BEq α] [LawfulBEq α] {r : List (α × β)} {k : α} {v : β}
    (h : r.lookup k = some v) : (k, v) ∈ r := by
  induction r with
  | nil => cases h
  | cons kv tl ih =>
    obtain ⟨k0, v0⟩ := kv
    by_cases hk : (k == k0) = true
    · have : k = k0 := by simpa using hk
      subst this
      simp [List.lookup] at h
      simp [h]
    · have hk2 : (k == k0) = false := by simpa using hk
      simp only [List.lookup, hk2] at h
      exact List.mem_cons_of_mem _ (ih h)

theorem rowDatesOk_getVal {r : Row} (h : rowDatesOk r = true) (k : String) :
    Cell.dateOk (getVal r k) = true := by
  unfold getVal
  cases hl : r.lookup k with
  | none => rfl
  | some v =>
    have hv := lookup_mem hl
    simp only [rowDatesOk, List.all_eq_true] at h
    simpa using h _ hv

theorem rowDatesOk_renameRow (m : List (String × String)) {r : Row}
    (h : rowDatesOk r = true) : rowDatesOk (renameRow m r) = true := by
  simp only [rowDatesOk, renameRow, List.all_eq_true, List.mem_map] at h ⊢
  rintro kv ⟨kv0, hkv0, rfl⟩
  exact h kv0 hkv0

theorem rowDatesOk_keyProj (cols : List String) (g : String → Cell)
    (h : ∀ k ∈ cols, Cell.dateOk (g k) = true) :
    rowDatesOk (cols.map (fun c => (c, g c))) = true := by
  simp only [rowDatesOk, List.all_eq_true, List.mem_map]
  rintro kv ⟨c, hc, rfl⟩
  exact h c hc

theorem rowDatesOk_projectRow (cols : List String) {r : Row}
    (h : rowDatesOk r = true) : rowDatesOk (projectRow cols r) = true := by
  rw [projectRow_eq_keyProj]
  exact rowDatesOk_keyProj _ _ (fun k _ => rowDatesOk_getVal h k)

theorem rowDatesOk_setColRow (ncols : List String) (c : String) (f : Row → Cell) {r : Row}
    (h : rowDatesOk r = true) (hf : Cell.dateOk (f r) = true) :
    rowDatesOk (setColRow ncols c f r) = true := by
  rw [setColRow_eq_keyProj]
  refine rowDatesOk_keyProj _ _ (fun k _ => ?_)
  by_cases hk : (k == c) = true
  · simpa [hk] using hf
  · have hk2 : (k == c) = false := by simpa using hk
    simpa [hk2] using rowDatesOk_getVal h k

theorem rowDatesOk_mapColRow (c : String) (f : Cell → Cell) {r : Row}
    (hf : ∀ v, Cell.dateOk v = true → Cell.dateOk (f v) = true)
    (h : rowDatesOk r = true) : rowDatesOk (mapColRow c f r) = true := by
  simp only [rowDatesOk, mapColRow, List.all_eq_true, List.mem_map] at h ⊢
  rintro kv ⟨kv0, hkv0, rfl⟩
  by_cases hk : (kv0.1 == c) = true
  · simpa [hk] using hf _ (h kv0 hkv0)
  · have hk2 : (kv0.1 == c) = false := by simpa using hk
    simpa [hk2] using h kv0 hkv0

/-! ## More row-access utilities -/

theorem getVal_setColRow_eqKey (ncols : List String) (c : String) (f : Row → Cell) (r : Row)
    (hc : c ∈ ncols) :
    getVal (setColRow ncols c f r) c = f r := by
  rw [setColRow_eq_keyProj, getVal_keyProj]
  simp [hc]

theorem getVal_setColRow_ne (ncols : List String) (c : String) (f : Row → Cell) (r : Row)
    (k : String) (hk : k ∈ ncols) (hne : ¬ k = c) :
    getVal (setColRow ncols c f r) k = getVal r k := by
  rw [setColRow_eq_keyProj, getVal_keyProj]
  have hb : (k == c) = false := by simpa using hne
  simp [hk, hb]

theorem getVal_mapColRow_self (c : String) (f : Cell → Cell) (r : Row)
    (hfm : f .missing = .missing) :
    getVal (mapColRow c f r) c = f (getVal r c) := by
  rw [getVal_mapColRow_eq]
  unfold getVal
  cases hl : r.lookup c <;> simp [hfm]

theorem toDatetimeCell_cases (v : Cell) (hv : Cell.dateOk v = true) :
    toDatetimeCell v = .missing ∨ ∃ d, toDatetimeCell v = .date d ∧ d.valid = true := by
  cases v with
  | str s =>
    cases hd : toDatetime s with
    | none => left; simp [toDatetimeCell, hd]
    | some d => right; exact ⟨d, by simp [toDatetimeCell, hd], toDatetime_valid _ _ hd⟩
  | num n => left; rfl
  | date d => right; exact ⟨d, rfl, by simpa [Cell.dateOk] using hv⟩
  | missing => left; rfl

/-! ## The chronological encoding agrees with date order on valid dates -/

theorem date_le_of_enc_le (d1 d2 : Date) (h1 : d1.valid = true) (h2 : d2.valid = true)
    (h : dateEnc d1 ≤ dateEnc d2) : Date.le d1 d2 = true := by
  obtain ⟨a1, a2, a3, a4, a5⟩ := valid_bounds d1 h1
  obtain ⟨b1, b2, b3, b4, b5⟩ := valid_bounds d2 h2
  simp only [Date.le, dateEnc, Bool.or_eq_true, Bool.and_eq_true, beq_iff_eq,
    decide_eq_true_eq] at h ⊢
  omega

theorem dateEnc_inj (d1 d2 : Date) (h1 : d1.valid = true) (h2 : d2.valid = true)
    (h : dateEnc d1 = dateEnc d2) : d1 = d2 := by
  obtain ⟨a1, a2, a3, a4, a5⟩ := valid_bounds d1 h1
  obtain ⟨b1, b2, b3, b4, b5⟩ := valid_bounds d2 h2
  obtain ⟨y1, m1, dd1⟩ := d1
  obtain ⟨y2, m2, dd2⟩ := d2
  simp only [dateEnc] at h
  simp only [Date.mk.injEq]
  simp only at a1 a2 a3 a4 a5 b1 b2 b3 b4 b5
  omega

theorem date_le_refl (d : Date) : Date.le d d = true := by
  simp [Date.le]

/-! ## The shared tail of the three pipelines -/

/-- The steps every pipeline performs after reducing to the canonical
columns (and after the type-specific numeric cleaning): datetime
conversion, sorting, formatting, Stage labelling, null handling. -/
def finishFrame (b : DataFrame) : DataFrame :=
  handleNulls (addAgencyStage (((b.mapCol "Date" toDatetimeCell).sortValues).mapCol
    "Date" strftimeCell))

theorem select_ok {df : DataFrame} {cols : List String} {out : DataFrame}
    (h : df.select cols = .ok out) :
    out = ⟨cols, df.rows.map (projectRow cols)⟩ ∧ cols.all df.cols.contains = true := by
  unfold DataFrame.select at h
  split at h
  · rename_i hall
    cases h
    exact ⟨rfl, hall⟩
  · cases h

theorem dropna_ok {df : DataFrame} {subset : List String} {out : DataFrame}
    (h : df.dropna subset = .ok out) :
    out = df.filterNa subset ∧ subset.all df.cols.contains = true := by
  unfold DataFrame.dropna at h
  split at h
  · rename_i hall
    cases h
    exact ⟨rfl, hall⟩
  · cases h

theorem transformKeywords_rep {a g df : DataFrame}
    (h : transformKeywords a g = .ok df) :
    ∃ bsel : DataFrame,
      ((((a.rename (getKeywordsMapping "Apple")).setCol "Platform"
          (fun _ => .str "Apple")).concat
        ((g.rename (getKeywordsMapping "Google")).setCol "Platform"
          (fun _ => .str "Google"))).select
          ((getColumnsToKeep "keywords").filter (fun c => !(c == "Stage"))) = .ok bsel)
      ∧ df = finishFrame bsel := by
  simp only [transformKeywords, Bind.bind, Except.bind] at h
  split at h
  · cases h
  · rename_i bsel hsel
    simp only [pure, Except.pure, Except.ok.injEq] at h
    exact ⟨bsel, hsel, h.symm⟩

theorem transformInstalls_rep {a g df : DataFrame}
    (h : transformInstalls a g = .ok df) :
    ∃ bsel : DataFrame,
      ((((a.rename (getInstallsMapping "Apple")).setCol "Platform"
          (fun _ => .str "Apple")).concat
        ((g.rename (getInstallsMapping "Google")).setCol "Platform"
          (fun _ => .str "Google"))).select
          ((getColumnsToKeep "installs").filter (fun c => !(c == "Stage"))) = .ok bsel)
      ∧ df = finishFrame
          ((bsel.mapCol "Installs" (fun c => .str (stripSpaces (cellToPyStr c)))).mapCol
            "Installs" (fun c => match c with | .str s => pdToNumeric s | c => c)) := by
  simp only [transformInstalls, Bind.bind, Except.bind] at h
  split at h
  · cases h
  · rename_i bsel hsel
    simp only [pure, Except.pure, Except.ok.injEq] at h
    exact ⟨bsel, hsel, h.symm⟩

theorem transformUsers_rep {a g df : DataFrame}
    (h : transformUsers a g = .ok df) :
    ∃ ac gc bsel bdrop : DataFrame,
      cleanAppleUsers a = .ok ac
      ∧ cleanGoogleUsers g = .ok gc
      ∧ ((ac.concat gc).select
          ((getColumnsToKeep "users").filter (fun c => !(c == "Stage"))) = .ok bsel)
      ∧ bsel.dropna ["Date", "Active_Users"] = .ok bdrop
      ∧ df = finishFrame bdrop := by
  simp only [transformUsers, Bind.bind, Except.bind] at h
  split at h
  · cases h
  · rename_i ac hac
    split at h
    · cases h
    · rename_i gc hgc
      split at h
      · cases h
      · rename_i bsel hsel
        split at h
        · cases h
        · rename_i bdrop hdrop
          simp only [pure, Except.pure, Except.ok.injEq] at h
          exact ⟨ac, gc, bsel, bdrop, hac, hgc, hsel, hdrop, h.symm⟩

theorem transformAllData_rep {raw : RawData} {kw ins us : DataFrame}
    (h : transformAllData raw = .ok (kw, ins, us)) :
    transformKeywords raw.keywordsApple raw.keywordsGoogle = .ok kw
    ∧ transformInstalls raw.installsApple raw.installsGoogle = .ok ins
    ∧ transformUsers raw.usersApple raw.usersGoogle = .ok us := by
  simp only [transformAllData, Bind.bind, Except.bind] at h
  split at h
  · cases h
  · rename_i kw0 hkw
    split at h
    · cases h
    · rename_i ins0 hins
      split at h
      · cases h
      · rename_i us0 hus
        simp only [pure, Except.pure, Except.ok.injEq, Prod.mk.injEq] at h
        obtain ⟨h1, h2, h3⟩ := h
        subst h1; subst h2; subst h3
        exact ⟨hkw, hins, hus⟩

theorem finishFrame_spec (b : DataFrame) (hD : b.cols.contains "Date" = true) :
    ∃ ncols : List String,
      ncols = (if b.cols.contains "Stage" then b.cols else b.cols ++ ["Stage"])
      ∧ (∀ k, k ∈ ncols ↔ (k ∈ b.cols ∨ k = "Stage"))
      ∧ (finishFrame b).cols = ncols
      ∧ (finishFrame b).rows
        = (((sortRows (b.rows.map (mapColRow "Date" toDatetimeCell))).map
            (mapColRow "Date" strftimeCell)).map
            (setColRow ncols "Stage" (fun r2 => stageOfCell (getVal r2 "Date")))).filter
            (fun r => List.all ["Date"] (fun c => !(getVal r c).isna)) := by
  have hDm : "Date" ∈ b.cols := by simpa using hD
  refine ⟨if b.cols.contains "Stage" then b.cols else b.cols ++ ["Stage"], rfl, ?_, ?_, ?_⟩
  · intro k
    split
    · rename_i hS
      constructor
      · intro hk; exact Or.inl hk
      · rintro (hk | rfl)
        · exact hk
        · simpa using hS
    · simp [List.mem_append]
  · show (handleNulls (addAgencyStage _)).cols = _
    unfold addAgencyStage
    have hD3 : (((b.mapCol "Date" toDatetimeCell).sortValues).mapCol
        "Date" strftimeCell).cols.contains "Date" = true := hD
    rw [if_pos hD3]
    unfold handleNulls
    rw [if_pos ?hc]
    case hc =>
      show (if b.cols.contains "Stage" then b.cols else b.cols ++ ["Stage"]).contains
        "Date" = true
      split
      · exact hD
      · simp [List.mem_append, hDm]
    rfl
  · show (handleNulls (addAgencyStage _)).rows = _
    unfold addAgencyStage
    have hD3 : (((b.mapCol "Date" toDatetimeCell).sortValues).mapCol
        "Date" strftimeCell).cols.contains "Date" = true := hD
    rw [if_pos hD3]
    unfold handleNulls
    rw [if_pos ?hc2]
    case hc2 =>
      show (if b.cols.contains "Stage" then b.cols else b.cols ++ ["Stage"]).contains
        "Date" = true
      split
      · exact hD
      · simp [List.mem_append, hDm]
    rfl

theorem tail_mem_rep (b : DataFrame) (hD : b.cols.contains "Date" = true) :
    ∀ row ∈ (finishFrame b).rows,
      ∃ (ncols : List String) (r0 : Row),
        (∀ k, k ∈ ncols ↔ (k ∈ b.cols ∨ k = "Stage"))
        ∧ r0 ∈ b.rows
        ∧ row = setColRow ncols "Stage" (fun r2 => stageOfCell (getVal r2 "Date"))
            (mapColRow "Date" strftimeCell (mapColRow "Date" toDatetimeCell r0))
        ∧ (getVal row "Date").isna = false := by
  obtain ⟨ncols, _, hnc, _, hrows⟩ := finishFrame_spec b hD
  intro row hrow
  rw [hrows] at hrow
  obtain ⟨hmem, hpred⟩ := List.mem_filter.1 hrow
  obtain ⟨r2, hr2, rfl⟩ := List.mem_map.1 hmem
  obtain ⟨r1, hr1, rfl⟩ := List.mem_map.1 hr2
  have hr1s : r1 ∈ b.rows.map (mapColRow "Date" toDatetimeCell) :=
    ((sortRows_perm _).mem_iff).1 hr1
  obtain ⟨r0, hr0, rfl⟩ := List.mem_map.1 hr1s
  refine ⟨ncols, r0, hnc, hr0, rfl, ?_⟩
  simpa [List.all] using hpred

theorem tail_stage (b : DataFrame) (hD : b.cols.contains "Date" = true) :
    ∀ row ∈ (finishFrame b).rows,
      (getVal row "Stage" = .str "Avec-Agence" ∨ getVal row "Stage" = .str "Pré-Agence")
      ∧ ((getVal row "Stage" = .str "Avec-Agence")
          ↔ ∃ s dd, getVal row "Date" = .str s ∧ strptimeDDMMYYYY s = some dd
              ∧ Date.le agencyStartDate dd = true) := by
  intro row hrow
  obtain ⟨ncols, r0, hnc, hr0, hrepr, hisna⟩ := tail_mem_rep b hD row hrow
  have hStageMem : "Stage" ∈ ncols := (hnc "Stage").2 (Or.inr rfl)
  have hDateMem : "Date" ∈ ncols := (hnc "Date").2 (Or.inl (by simpa using hD))
  have g1 : getVal row "Stage"
      = stageOfCell (getVal (mapColRow "Date" strftimeCell
          (mapColRow "Date" toDatetimeCell r0)) "Date") := by
    rw [hrepr]
    exact getVal_setColRow_eqKey _ _ _ _ hStageMem
  have g2 : getVal row "Date"
      = getVal (mapColRow "Date" strftimeCell (mapColRow "Date" toDatetimeCell r0))
          "Date" := by
    rw [hrepr]
    exact getVal_setColRow_ne _ _ _ _ _ hDateMem (by decide)
  have g3 : getVal (mapColRow "Date" strftimeCell (mapColRow "Date" toDatetimeCell r0))
      "Date" = strftimeCell (getVal (mapColRow "Date" toDatetimeCell r0) "Date") :=
    getVal_mapColRow_self _ _ _ rfl
  cases hc : getVal (mapColRow "Date" toDatetimeCell r0) "Date" with
  | str s =>
    rw [g2, g3, hc] at hisna
    simp [strftimeCell, Cell.isna] at hisna
  | num n =>
    rw [g2, g3, hc] at hisna
    simp [strftimeCell, Cell.isna] at hisna
  | missing =>
    rw [g2, g3, hc] at hisna
    simp [strftimeCell, Cell.isna] at hisna
  | date dd =>
    have hDdate : getVal row "Date" = Cell.str (strftimeDDMMYYYY dd) := by
      rw [g2, g3, hc]
      rfl
    have hStage : getVal row "Stage" = stageOfCell (Cell.str (strftimeDDMMYYYY dd)) := by
      rw [g1, g3, hc]
      rfl
    cases hp : strptimeDDMMYYYY (strftimeDDMMYYYY dd) with
    | some dd2 =>
      by_cases hle : Date.le agencyStartDate dd2 = true
      · have hs : stageOfCell (Cell.str (strftimeDDMMYYYY dd)) = .str "Avec-Agence" := by
          simp [stageOfCell, hp, hle]
        refine ⟨Or.inl (by rw [hStage, hs]), ?_, ?_⟩
        · intro _
          exact ⟨strftimeDDMMYYYY dd, dd2, hDdate, hp, hle⟩
        · intro _
          rw [hStage, hs]
      · have hs : stageOfCell (Cell.str (strftimeDDMMYYYY dd)) = .str "Pré-Agence" := by
          simp [stageOfCell, hp, hle]
        refine ⟨Or.inr (by rw [hStage, hs]), ?_, ?_⟩
        · intro hA
          rw [hStage, hs] at hA
          exact absurd hA (by decide)
        · rintro ⟨s0, dd0, hDs0, hps0, hle0⟩
          rw [hDdate] at hDs0
          have hseq : strftimeDDMMYYYY dd = s0 := by
            injection hDs0
          rw [← hseq, hp] at hps0
          have : dd2 = dd0 := by injection hps0
          subst this
          exact absurd hle0 hle
    | none =>
      have hs : stageOfCell (Cell.str (strftimeDDMMYYYY dd)) = .str "Pré-Agence" := by
        simp [stageOfCell, hp]
      refine ⟨Or.inr (by rw [hStage, hs]), ?_, ?_⟩
      · intro hA
        rw [hStage, hs] at hA
        exact absurd hA (by decide)
      · rintro ⟨s0, dd0, hDs0, hps0, _⟩
        rw [hDdate] at hDs0
        have hseq : strftimeDDMMYYYY dd = s0 := by
          injection hDs0
        rw [← hseq, hp] at hps0
        cases hps0

theorem tail_retention (b : DataFrame) (hD : b.cols.contains "Date" = true)
    {r0 : Row} (hr0 : r0 ∈ b.rows) {d : Date}
    (hd : toDatetimeCell (getVal r0 "Date") = .date d) :
    ∃ row ∈ (finishFrame b).rows,
      getVal row "Date" = .str (strftimeDDMMYYYY d)
      ∧ getVal row "Stage" = stageOfCell (.str (strftimeDDMMYYYY d))
      ∧ ∀ k, ¬ k = "Date" → ¬ k = "Stage" → k ∈ b.cols → getVal row k = getVal r0 k := by
  obtain ⟨ncols, _, hnc, _, hrows⟩ := finishFrame_spec b hD
  have hStageMem : "Stage" ∈ ncols := (hnc "Stage").2 (Or.inr rfl)
  have hDateMem : "Date" ∈ ncols := (hnc "Date").2 (Or.inl (by simpa using hD))
  have gD1 : getVal (mapColRow "Date" toDatetimeCell r0) "Date"
      = toDatetimeCell (getVal r0 "Date") := getVal_mapColRow_self _ _ _ rfl
  have gD2 : getVal (mapColRow "Date" strftimeCell (mapColRow "Date" toDatetimeCell r0))
      "Date" = strftimeCell (getVal (mapColRow "Date" toDatetimeCell r0) "Date") :=
    getVal_mapColRow_self _ _ _ rfl
  have gD2v : getVal (mapColRow "Date" strftimeCell (mapColRow "Date" toDatetimeCell r0))
      "Date" = .str (strftimeDDMMYYYY d) := by
    rw [gD2, gD1, hd]
    rfl
  refine ⟨setColRow ncols "Stage" (fun r2 => stageOfCell (getVal r2 "Date"))
    (mapColRow "Date" strftimeCell (mapColRow "Date" toDatetimeCell r0)), ?_, ?_, ?_, ?_⟩
  · rw [hrows]
    refine List.mem_filter.2 ⟨?_, ?_⟩
    · exact List.mem_map_of_mem _ (List.mem_map_of_mem _
        (((sortRows_perm _).mem_iff).2 (List.mem_map_of_mem _ hr0)))
    · have gRowDate : getVal (setColRow ncols "Stage"
          (fun r2 => stageOfCell (getVal r2 "Date"))
          (mapColRow "Date" strftimeCell (mapColRow "Date" toDatetimeCell r0))) "Date"
          = .str (strftimeDDMMYYYY d) := by
        rw [getVal_setColRow_ne _ _ _ _ _ hDateMem (by decide), gD2v]
      simp [List.all, gRowDate, Cell.isna]
  · rw [getVal_setColRow_ne _ _ _ _ _ hDateMem (by decide), gD2v]
  · rw [getVal_setColRow_eqKey _ _ _ _ hStageMem, gD2v]
  · intro k hk1 hk2 hk3
    have hkm : k ∈ ncols := (hnc k).2 (Or.inl hk3)
    rw [getVal_setColRow_ne _ _ _ _ _ hkm hk2,
      getVal_mapColRow_ne _ _ _ _ hk1, getVal_mapColRow_ne _ _ _ _ hk1]

/-- The relation the sort invariant asserts between two adjacent output
rows: the canonical Date strings re-parse to calendar dates that compare
chronologically, with the Platform string as tie-break for equal dates. -/
def outRel (r1 r2 : Row) : Prop :=
  ∃ s1 s2 d1 d2, getVal r1 "Date" = .str s1 ∧ getVal r2 "Date" = .str s2
    ∧ strptimeDDMMYYYY s1 = some d1 ∧ strptimeDDMMYYYY s2 = some d2
    ∧ Date.le d1 d2 = true
    ∧ (d1 = d2 →
        pyStrLe (platStr (getVal r1 "Platform")) (platStr (getVal r2 "Platform")) = true)

theorem tail_chain (b : DataFrame) (hD : b.cols.contains "Date" = true)
    (hP : b.cols.contains "Platform" = true)
    (hOk : ∀ r ∈ b.rows, rowDatesOk r = true) :
    (finishFrame b).rows.Chain' outRel := by
  obtain ⟨ncols, _, hnc, _, hrows⟩ := finishFrame_spec b hD
  have hStageMem : "Stage" ∈ ncols := (hnc "Stage").2 (Or.inr rfl)
  have hDateMem : "Date" ∈ ncols := (hnc "Date").2 (Or.inl (by simpa using hD))
  have hPlatMem : "Platform" ∈ ncols := (hnc "Platform").2 (Or.inl (by simpa using hP))
  rw [hrows, List.filter_map, List.filter_map]
  apply List.Pairwise.chain'
  rw [List.pairwise_map, List.pairwise_map]
  have hPair : (sortRows (b.rows.map (mapColRow "Date" toDatetimeCell))).Pairwise
      (fun x y => rowLe x y = true) := sortRows_pairwise _
  have key : ∀ x ∈ (sortRows (b.rows.map (mapColRow "Date" toDatetimeCell))).filter
      (((fun r => List.all ["Date"] (fun c => !(getVal r c).isna)) ∘
        setColRow ncols "Stage" (fun r2 => stageOfCell (getVal r2 "Date"))) ∘
        mapColRow "Date" strftimeCell),
      ∃ dx, getVal x "Date" = Cell.date dx ∧ dx.valid = true := by
    intro x hx
    obtain ⟨hxs, hq⟩ := List.mem_filter.1 hx
    obtain ⟨x0, hx0, rfl⟩ := List.mem_map.1 (((sortRows_perm _).mem_iff).1 hxs)
    have hok := rowDatesOk_getVal (hOk x0 hx0) "Date"
    have hcell : getVal (mapColRow "Date" toDatetimeCell x0) "Date"
        = toDatetimeCell (getVal x0 "Date") := getVal_mapColRow_self _ _ _ rfl
    rcases toDatetimeCell_cases _ hok with hmiss | ⟨dx, hdx, hval⟩
    · exfalso
      simp only [Function.comp] at hq
      simp only [List.all_cons, List.all_nil, Bool.and_true] at hq
      rw [getVal_setColRow_ne _ _ _ _ _ hDateMem (by decide),
        getVal_mapColRow_self _ _ _ rfl, hcell, hmiss] at hq
      simp [strftimeCell, Cell.isna] at hq
    · exact ⟨dx, by rw [hcell, hdx], hval⟩
  refine List.Pairwise.imp_of_mem ?_
    (List.Pairwise.sublist (List.filter_sublist _) hPair)
  intro a c ha hc hr
  obtain ⟨da, hda, hvda⟩ := key a ha
  obtain ⟨dc, hdc, hvdc⟩ := key c hc
  have fa : getVal (setColRow ncols "Stage" (fun r2 => stageOfCell (getVal r2 "Date"))
      (mapColRow "Date" strftimeCell a)) "Date" = .str (strftimeDDMMYYYY da) := by
    rw [getVal_setColRow_ne _ _ _ _ _ hDateMem (by decide),
      getVal_mapColRow_self _ _ _ rfl, hda]
    rfl
  have fc : getVal (setColRow ncols "Stage" (fun r2 => stageOfCell (getVal r2 "Date"))
      (mapColRow "Date" strftimeCell c)) "Date" = .str (strftimeDDMMYYYY dc) := by
    rw [getVal_setColRow_ne _ _ _ _ _ hDateMem (by decide),
      getVal_mapColRow_self _ _ _ rfl, hdc]
    rfl
  have fpa : getVal (setColRow ncols "Stage" (fun r2 => stageOfCell (getVal r2 "Date"))
      (mapColRow "Date" strftimeCell a)) "Platform" = getVal a "Platform" := by
    rw [getVal_setColRow_ne _ _ _ _ _ hPlatMem (by decide),
      getVal_mapColRow_ne _ _ _ _ (by decide)]
  have fpc : getVal (setColRow ncols "Stage" (fun r2 => stageOfCell (getVal r2 "Date"))
      (mapColRow "Date" strftimeCell c)) "Platform" = getVal c "Platform" := by
    rw [getVal_setColRow_ne _ _ _ _ _ hPlatMem (by decide),
      getVal_mapColRow_ne _ _ _ _ (by decide)]
  unfold rowLe at hr
  rw [hda, hdc] at hr
  simp only [dateKey, Bool.or_eq_true, Bool.and_eq_true, beq_iff_eq,
    decide_eq_true_eq] at hr
  refine ⟨strftimeDDMMYYYY da, strftimeDDMMYYYY dc, da, dc, fa, fc,
    strptime_strftime da hvda, strptime_strftime dc hvdc, ?_, ?_⟩
  · rcases hr with hlt | ⟨heq, _⟩
    · exact date_le_of_enc_le _ _ hvda hvdc (Nat.le_of_lt hlt)
    · rw [dateEnc_inj da dc hvda hvdc heq]
      exact date_le_refl dc
  · intro hdd
    rw [fpa, fpc]
    rcases hr with hlt | ⟨_, hple⟩
    · subst hdd
      omega
    · exact hple

/-! ## Transport of date-well-formedness through the pipeline fronts -/

theorem allRows_map {l : List Row} {f : Row → Row}
    (h : ∀ r ∈ l, rowDatesOk r = true)
    (hf : ∀ r, rowDatesOk r = true → rowDatesOk (f r) = true) :
    ∀ r ∈ l.map f, rowDatesOk r = true := by
  intro r hr
  obtain ⟨r0, hr0, rfl⟩ := List.mem_map.1 hr
  exact hf r0 (h r0 hr0)

theorem allRows_append {l1 l2 : List Row}
    (h1 : ∀ r ∈ l1, rowDatesOk r = true) (h2 : ∀ r ∈ l2, rowDatesOk r = true) :
    ∀ r ∈ l1 ++ l2, rowDatesOk r = true := by
  intro r hr
  rcases List.mem_append.1 hr with hr | hr
  · exact h1 r hr
  · exact h2 r hr

theorem allRows_filter {l : List Row} {p : Row → Bool}
    (h : ∀ r ∈ l, rowDatesOk r = true) :
    ∀ r ∈ l.filter p, rowDatesOk r = true := by
  intro r hr
  exact h r (List.mem_filter.1 hr).1

theorem allRows_drop {l : List Row} (n : Nat)
    (h : ∀ r ∈ l, rowDatesOk r = true) :
    ∀ r ∈ l.drop n, rowDatesOk r = true := by
  intro r hr
  exact h r (List.mem_of_mem_drop hr)

theorem dateOk_pdToNumeric (s : String) : (pdToNumeric s).dateOk = true := by
  unfold pdToNumeric
  cases toNumericChars s.toList <;> rfl

theorem datesOk_rows {df : DataFrame} (h : df.datesOk = true) :
    ∀ r ∈ df.rows, rowDatesOk r = true := by
  simpa [DataFrame.datesOk, List.all_eq_true] using h

theorem front_select_ok
    {a g : DataFrame} {m1 m2 : List (String × String)} {p1 p2 : String}
    {ctk : List String} {bsel : DataFrame}
    (hsel : (((a.rename m1).setCol "Platform" (fun _ => Cell.str p1)).concat
              ((g.rename m2).setCol "Platform" (fun _ => Cell.str p2))).select ctk = .ok bsel)
    (ha : ∀ r ∈ a.rows, rowDatesOk r = true)
    (hg : ∀ r ∈ g.rows, rowDatesOk r = true) :
    ∀ r ∈ bsel.rows, rowDatesOk r = true := by
  obtain ⟨hb, _⟩ := select_ok hsel
  subst hb
  refine allRows_map (f := projectRow ctk) ?_ (fun r hr => rowDatesOk_projectRow _ hr)
  show ∀ r ∈ (_ ++ _ : List Row).map (projectRow _), rowDatesOk r = true
  refine allRows_map ?_ (fun r hr => rowDatesOk_projectRow _ hr)
  refine allRows_append ?_ ?_
  · refine allRows_map (allRows_map ha (fun r hr => rowDatesOk_renameRow m1 hr)) ?_
    intro r hr
    exact rowDatesOk_setColRow _ _ _ hr rfl
  · refine allRows_map (allRows_map hg (fun r hr => rowDatesOk_renameRow m2 hr)) ?_
    intro r hr
    exact rowDatesOk_setColRow _ _ _ hr rfl

theorem cleanAppleUsers_rep {a ac : DataFrame} (h : cleanAppleUsers a = .ok ac) :
    ∃ adrop : DataFrame,
      (DataFrame.dropna ⟨(a.rename (getUsersMapping "Apple")).cols,
        (a.rename (getUsersMapping "Apple")).rows.drop 2⟩ ["Date", "Active_Users"] = .ok adrop)
      ∧ ac = (adrop.setCol "Platform" (fun _ => .str "Apple")).setCol "Notes"
          (fun _ => .str "") := by
  simp only [cleanAppleUsers, Bind.bind, Except.bind] at h
  split at h
  · cases h
  · rename_i adrop hdrop
    simp only [pure, Except.pure, Except.ok.injEq] at h
    exact ⟨adrop, hdrop, h.symm⟩

theorem cleanGoogleUsers_rep {g gc : DataFrame} (h : cleanGoogleUsers g = .ok gc) :
    ∃ gsel gdrop : DataFrame,
      ((g.rename (getUsersMapping "Google")).select ["Date", "Active_Users", "Notes"]
        = .ok gsel)
      ∧ (((gsel.mapCol "Active_Users" (fun c => .str (stripSpaces (cellToPyStr c)))).mapCol
          "Active_Users" (fun c => match c with | .str s => pdToNumeric s | c => c)).dropna
          ["Date", "Active_Users"] = .ok gdrop)
      ∧ gc = ((gdrop.mapCol "Date"
            (fun c => match parseFrenchCell c with
              | some d => .date d | none => .missing)).mapCol
            "Notes" (fun c => if c.isna then .str "" else c)).setCol "Platform"
            (fun _ => .str "Google") := by
  simp only [cleanGoogleUsers, Bind.bind, Except.bind] at h
  split at h
  · cases h
  · rename_i gsel hsel
    split at h
    · cases h
    · rename_i gdrop hdrop
      simp only [pure, Except.pure, Except.ok.injEq] at h
      exact ⟨gsel, gdrop, hsel, hdrop, h.symm⟩

theorem cleanAppleUsers_rows_ok {a ac : DataFrame} (h : cleanAppleUsers a = .ok ac)
    (ha : ∀ r ∈ a.rows, rowDatesOk r = true) :
    ∀ r ∈ ac.rows, rowDatesOk r = true := by
  obtain ⟨adrop, hdrop, hac⟩ := cleanAppleUsers_rep h
  obtain ⟨hb, _⟩ := dropna_ok hdrop
  subst hac
  subst hb
  refine allRows_map (allRows_map ?_ ?_) ?_
  · exact allRows_filter (allRows_drop 2
      (allRows_map ha (fun r hr => rowDatesOk_renameRow _ hr)))
  · intro r hr
    exact rowDatesOk_setColRow _ _ _ hr rfl
  · intro r hr
    exact rowDatesOk_setColRow _ _ _ hr rfl

theorem cleanGoogleUsers_rows_ok {g gc : DataFrame} (h : cleanGoogleUsers g = .ok gc)
    (hg : ∀ r ∈ g.rows, rowDatesOk r = true) :
    ∀ r ∈ gc.rows, rowDatesOk r = true := by
  obtain ⟨gsel, gdrop, hsel, hdrop, hgc⟩ := cleanGoogleUsers_rep h
  obtain ⟨hb, _⟩ := select_ok hsel
  obtain ⟨hb2, _⟩ := dropna_ok hdrop
  subst hgc
  subst hb2
  subst hb
  refine allRows_map (allRows_map (allRows_map ?_ ?_) ?_) ?_
  · refine allRows_filter (allRows_map (allRows_map ?_ ?_) ?_)
    · exact allRows_map (allRows_map hg (fun r hr => rowDatesOk_renameRow _ hr))
        (fun r hr => rowDatesOk_projectRow _ hr)
    · intro r hr
      exact rowDatesOk_mapColRow _ _ (fun v _ => rfl) hr
    · intro r hr
      refine rowDatesOk_mapColRow _ _ (fun v hv => ?_) hr
      cases v with
      | str s => exact dateOk_pdToNumeric s
      | num n => exact hv
      | date d => exact hv
      | missing => exact hv
  · intro r hr
    refine rowDatesOk_mapColRow _ _ (fun v hv => ?_) hr
    cases hp : parseFrenchCell v with
    | some d => simpa [Cell.dateOk] using parseFrenchCell_valid v d hp
    | none => rfl
  · intro r hr
    refine rowDatesOk_mapColRow _ _ (fun v hv => ?_) hr
    by_cases hna : v.isna = true
    · simp [hna, Cell.dateOk]
    · have hb : v.isna = false := by simpa using hna
      simpa [hb] using hv
  · intro r hr
    exact rowDatesOk_setColRow _ _ _ hr rfl

theorem users_select_ok {ac gc : DataFrame} {ctk : List String} {bsel bdrop : DataFrame}
    (hsel : (ac.concat gc).select ctk = .ok bsel)
    (hdrop : bsel.dropna ["Date", "Active_Users"] = .ok bdrop)
    (hac : ∀ r ∈ ac.rows, rowDatesOk r = true)
    (hgc : ∀ r ∈ gc.rows, rowDatesOk r = true) :
    ∀ r ∈ bdrop.rows, rowDatesOk r = true := by
  obtain ⟨hb, _⟩ := select_ok hsel
  obtain ⟨hb2, _⟩ := dropna_ok hdrop
  subst hb2
  subst hb
  refine allRows_filter (allRows_map ?_ (fun r hr => rowDatesOk_projectRow _ hr))
  show ∀ r ∈ (_ ++ _ : List Row).map (projectRow _), rowDatesOk r = true
  exact allRows_map (allRows_append hac hgc) (fun r hr => rowDatesOk_projectRow _ hr)

theorem tail_keys (b : DataFrame) (hD : b.cols.contains "Date" = true) :
    ∀ row ∈ (finishFrame b).rows, row.map Prod.fst = (finishFrame b).cols := by
  obtain ⟨ncols, _, _, hcols, hrows⟩ := finishFrame_spec b hD
  intro row hrow
  rw [hrows] at hrow
  obtain ⟨hmem, _⟩ := List.mem_filter.1 hrow
  obtain ⟨r2, _, rfl⟩ := List.mem_map.1 hmem
  rw [hcols, setColRow_eq_keyProj, keys_keyProj]

/-! ## Retention of rows through the pipeline -/

theorem mem_setCol_cols {cols : List String} {c k : String} (hk : k ∈ cols) :
    k ∈ (if cols.contains c then cols else cols ++ [c]) := by
  split
  · exact hk
  · exact List.mem_append_left _ hk

theorem mem_setCol_cols_self (cols : List String) (c : String) :
    c ∈ (if cols.contains c then cols else cols ++ [c]) := by
  split
  · rename_i h
    simpa using h
  · exact List.mem_append_right _ (by simp)

theorem concat_mem_and_vals
    (x y : DataFrame) {r : Row} (hr : r ∈ x.rows ∨ r ∈ y.rows) :
    ∃ rc, rc ∈ (x.concat y).rows
    ∧ (∀ k, k ∈ (x.concat y).cols → getVal rc k = getVal r k)
    ∧ rc = projectRow (x.concat y).cols r := by
  refine ⟨projectRow (x.concat y).cols r, ?_, ?_, rfl⟩
  · exact List.mem_map_of_mem _ (List.mem_append.2 hr)
  · intro k hk
    rw [projectRow_eq_keyProj, getVal_keyProj, if_pos hk]

theorem clean_mem_and_vals
    (a : DataFrame) (m : List (String × String)) (plat : String)
    {r0 : Row} (hr0 : r0 ∈ a.rows) :
    ∃ r1 ∈ ((a.rename m).setCol "Platform" (fun _ => Cell.str plat)).rows,
      getVal r1 "Platform" = .str plat
      ∧ ∀ k, k ∈ (a.rename m).cols → ¬ k = "Platform"
          → getVal r1 k = getVal (renameRow m r0) k := by
  refine ⟨setColRow (if (a.rename m).cols.contains "Platform" then (a.rename m).cols
    else (a.rename m).cols ++ ["Platform"]) "Platform" (fun _ => Cell.str plat)
    (renameRow m r0), ?_, ?_, ?_⟩
  · exact List.mem_map_of_mem _ (List.mem_map_of_mem _ hr0)
  · exact getVal_setColRow_eqKey _ _ _ _ (mem_setCol_cols_self _ _)
  · intro k hk hkp
    exact getVal_setColRow_ne _ _ _ _ _ (mem_setCol_cols hk) hkp

theorem select_cols_sub {df out : DataFrame} {cols : List String}
    (hsel : df.select cols = .ok out) : ∀ k ∈ cols, k ∈ df.cols := by
  obtain ⟨_, hall⟩ := select_ok hsel
  intro k hk
  simp only [List.all_eq_true] at hall
  simpa using hall k hk

theorem installs_selected_retention
    {comb bsel : DataFrame}
    (hsel : comb.select ((getColumnsToKeep "installs").filter (fun c => !(c == "Stage")))
      = .ok bsel)
    {rc : Row} (hrc : rc ∈ comb.rows) {d : Date}
    (hd : toDatetimeCell (getVal rc "Date") = .date d) :
    ∃ row ∈ (finishFrame ((bsel.mapCol "Installs"
        (fun c => .str (stripSpaces (cellToPyStr c)))).mapCol "Installs"
        (fun c => match c with | .str s => pdToNumeric s | c => c))).rows,
      getVal row "Date" = .str (strftimeDDMMYYYY d)
      ∧ getVal row "Installs" = cleanNumericCell (getVal rc "Installs")
      ∧ getVal row "Platform" = getVal rc "Platform" := by
  obtain ⟨hb, _⟩ := select_ok hsel
  subst hb
  have hrs : projectRow ((getColumnsToKeep "installs").filter (fun c => !(c == "Stage"))) rc
      ∈ (comb.rows.map (projectRow
        ((getColumnsToKeep "installs").filter (fun c => !(c == "Stage"))))) :=
    List.mem_map_of_mem _ hrc
  have hvD : getVal (projectRow ((getColumnsToKeep "installs").filter
      (fun c => !(c == "Stage"))) rc) "Date" = getVal rc "Date" := by
    rw [projectRow_eq_keyProj, getVal_keyProj, if_pos (by decide)]
  have hvP : getVal (projectRow ((getColumnsToKeep "installs").filter
      (fun c => !(c == "Stage"))) rc) "Platform" = getVal rc "Platform" := by
    rw [projectRow_eq_keyProj, getVal_keyProj, if_pos (by decide)]
  have hlook : (projectRow ((getColumnsToKeep "installs").filter
      (fun c => !(c == "Stage"))) rc).lookup "Installs"
      = some (getVal rc "Installs") := by
    rw [projectRow_eq_keyProj, lookup_keyProj, if_pos (by decide)]
  obtain ⟨row, hm, hDate, _, hpres⟩ := tail_retention
    (((⟨(getColumnsToKeep "installs").filter (fun c => !(c == "Stage")),
        comb.rows.map (projectRow ((getColumnsToKeep "installs").filter
          (fun c => !(c == "Stage"))))⟩ : DataFrame).mapCol "Installs"
      (fun c => .str (stripSpaces (cellToPyStr c)))).mapCol "Installs"
      (fun c => match c with | .str s => pdToNumeric s | c => c))
    (by rfl)
    (List.mem_map_of_mem _ (List.mem_map_of_mem _ hrs))
    (d := d)
    (by rw [getVal_mapColRow_ne _ _ _ _ (by decide),
          getVal_mapColRow_ne _ _ _ _ (by decide), hvD]
        exact hd)
  have hpres2 : ∀ k, ¬ k = "Date" → ¬ k = "Stage"
      → k ∈ (getColumnsToKeep "installs").filter (fun c => !(c == "Stage"))
      → getVal row k = getVal (mapColRow "Installs"
          (fun c => match c with | .str s => pdToNumeric s | c => c)
          (mapColRow "Installs" (fun c => .str (stripSpaces (cellToPyStr c)))
            (projectRow ((getColumnsToKeep "installs").filter (fun c => !(c == "Stage")))
              rc))) k :=
    fun k h1 h2 h3 => hpres k h1 h2 h3
  refine ⟨row, hm, hDate, ?_, ?_⟩
  · rw [hpres2 "Installs" (by decide) (by decide) (by decide)]
    unfold getVal
    rw [lookup_mapColRow, if_pos rfl, lookup_mapColRow, if_pos rfl, hlook]
    rfl
  · rw [hpres2 "Platform" (by decide) (by decide) (by decide),
      getVal_mapColRow_ne _ _ _ _ (by decide),
      getVal_mapColRow_ne _ _ _ _ (by decide), hvP]

theorem keywords_selected_retention
    {comb bsel : DataFrame}
    (hsel : comb.select ((getColumnsToKeep "keywords").filter (fun c => !(c == "Stage")))
      = .ok bsel)
    {rc : Row} (hrc : rc ∈ comb.rows) {d : Date}
    (hd : toDatetimeCell (getVal rc "Date") = .date d) :
    ∃ row ∈ (finishFrame bsel).rows,
      getVal row "Date" = .str (strftimeDDMMYYYY d)
      ∧ getVal row "Platform" = getVal rc "Platform"
      ∧ ∀ c ∈ (["Rank_1", "Rank_2_3", "Rank_4_10", "Rank_11_30", "Rank_31_100",
          "Rank_100_Plus"] : List String), getVal row c = getVal rc c := by
  obtain ⟨hb, _⟩ := select_ok hsel
  subst hb
  have hrs : projectRow ((getColumnsToKeep "keywords").filter (fun c => !(c == "Stage"))) rc
      ∈ (comb.rows.map (projectRow
        ((getColumnsToKeep "keywords").filter (fun c => !(c == "Stage"))))) :=
    List.mem_map_of_mem _ hrc
  have hval : ∀ k, k ∈ ((getColumnsToKeep "keywords").filter (fun c => !(c == "Stage")))
      → getVal (projectRow ((getColumnsToKeep "keywords").filter
          (fun c => !(c == "Stage"))) rc) k = getVal rc k := by
    intro k hk
    rw [projectRow_eq_keyProj, getVal_keyProj, if_pos hk]
  obtain ⟨row, hm, hDate, _, hpres⟩ := tail_retention
    (⟨(getColumnsToKeep "keywords").filter (fun c => !(c == "Stage")),
      comb.rows.map (projectRow ((getColumnsToKeep "keywords").filter
        (fun c => !(c == "Stage"))))⟩ : DataFrame)
    (by rfl) hrs (d := d)
    (by rw [hval "Date" (by decide)]
        exact hd)
  have hpres2 : ∀ k, ¬ k = "Date" → ¬ k = "Stage"
      → k ∈ (getColumnsToKeep "keywords").filter (fun c => !(c == "Stage"))
      → getVal row k = getVal (projectRow ((getColumnsToKeep "keywords").filter
          (fun c => !(c == "Stage"))) rc) k :=
    fun k h1 h2 h3 => hpres k h1 h2 h3
  refine ⟨row, hm, hDate, ?_, ?_⟩
  · rw [hpres2 "Platform" (by decide) (by decide) (by decide), hval "Platform" (by decide)]
  · intro c hc
    simp only [List.mem_cons, List.not_mem_nil, or_false] at hc
    rcases hc with rfl | rfl | rfl | rfl | rfl | rfl <;>
      rw [hpres2 _ (by decide) (by decide) (by decide), hval _ (by decide)]

/-! ## Concrete run used by the witnesses -/

/-- A raw Apple keywords export. -/
def wKwApple : DataFrame :=
  ⟨["DateTime", "Rank 1", "Rank 2 - 3", "Rank 4 - 10", "Rank 11-30", "Rank 31-100",
    "Rank 100+"],
   [[("DateTime", .str "01/03/2025"), ("Rank 1", .num 5), ("Rank 2 - 3", .num 4),
     ("Rank 4 - 10", .num 3), ("Rank 11-30", .num 2), ("Rank 31-100", .num 1),
     ("Rank 100+", .num 0)]]⟩

/-- A raw Google keywords export. -/
def wKwGoogle : DataFrame :=
  ⟨["DateTime", "Rank 1", "Rank 2 - 3", "Rank 4 - 10", "Rank 11-30", "Rank 31-100",
    "Rank 100+"],
   [[("DateTime", .str "02/03/2025"), ("Rank 1", .num 3), ("Rank 2 - 3", .num 3),
     ("Rank 4 - 10", .num 3), ("Rank 11-30", .num 3), ("Rank 31-100", .num 3),
     ("Rank 100+", .num 3)]]⟩

/-- A raw Apple installs export (count with a no-break-space separator). -/
def wInsApple : DataFrame :=
  ⟨["Date", "Installs Apple"],
   [[("Date", .str "15/08/2025"), ("Installs Apple", .str "1 042")]]⟩

/-- A raw Google installs export with an unparsable count cell. -/
def wInsGoogle : DataFrame :=
  ⟨["Date", "Installs Google Play"],
   [[("Date", .str "16/08/2025"), ("Installs Google Play", .str "abc")]]⟩

/-- A raw Apple users export: two metadata rows, then one data row. -/
def wUsersApple : DataFrame :=
  ⟨["Nom", "Courses U : Magasin en ligne"],
   [[("Nom", .str "Debut"), ("Courses U : Magasin en ligne", .missing)],
    [("Nom", .str "Fin"), ("Courses U : Magasin en ligne", .missing)],
    [("Nom", .str "05/01/2024"), ("Courses U : Magasin en ligne", .num 100)]]⟩

/-- A raw Google users export with a French date and a spaced count. -/
def wUsersGoogle : DataFrame :=
  ⟨["Date",
    "Utilisateurs actifs par mois (UAM) (Utilisateurs uniques, Par intervalle, Quotidiennes) : Tous les pays/régions",
    "Notes"],
   [[("Date", .str "1 janv. 2024"),
     ("Utilisateurs actifs par mois (UAM) (Utilisateurs uniques, Par intervalle, Quotidiennes) : Tous les pays/régions",
      .str "2 000"),
     ("Notes", .missing)]]⟩

/-- The six raw tables of the concrete run. -/
def wRaw : RawData :=
  ⟨wKwApple, wKwGoogle, wInsApple, wInsGoogle, wUsersApple, wUsersGoogle⟩

/-- The keywords table the transform produces on `wRaw`. -/
def wKwOut : DataFrame :=
  ⟨["Date", "Rank_1", "Rank_2_3", "Rank_4_10", "Rank_11_30", "Rank_31_100",
    "Rank_100_Plus", "Platform", "Stage"],
   [[("Date", .str "03/01/2025"), ("Rank_1", .num 5), ("Rank_2_3", .num 4),
     ("Rank_4_10", .num 3), ("Rank_11_30", .num 2), ("Rank_31_100", .num 1),
     ("Rank_100_Plus", .num 0), ("Platform", .str "Apple"),
     ("Stage", .str "Pré-Agence")],
    [("Date", .str "03/02/2025"), ("Rank_1", .num 3), ("Rank_2_3", .num 3),
     ("Rank_4_10", .num 3), ("Rank_11_30", .num 3), ("Rank_31_100", .num 3),
     ("Rank_100_Plus", .num 3), ("Platform", .str "Google"),
     ("Stage", .str "Pré-Agence")]]⟩

/-- The installs table the transform produces on `wRaw`. -/
def wInsOut : DataFrame :=
  ⟨["Date", "Installs", "Platform", "Stage"],
   [[("Date", .str "15/08/2025"), ("Installs", .num 1042),
     ("Platform", .str "Apple"), ("Stage", .str "Avec-Agence")],
    [("Date", .str "16/08/2025"), ("Installs", .missing),
     ("Platform", .str "Google"), ("Stage", .str "Avec-Agence")]]⟩

/-- The users table the transform produces on `wRaw`. -/
def wUsersOut : DataFrame :=
  ⟨["Date", "Active_Users", "Platform", "Notes", "Stage"],
   [[("Date", .str "01/01/2024"), ("Active_Users", .num 2000),
     ("Platform", .str "Google"), ("Notes", .str ""),
     ("Stage", .str "Pré-Agence")],
    [("Date", .str "01/05/2024"), ("Active_Users", .num 100),
     ("Platform", .str "Apple"), ("Notes", .str ""),
     ("Stage", .str "Pré-Agence")]]⟩

theorem wEval : transformAllData wRaw = .ok (wKwOut, wInsOut, wUsersOut) := by rfl

/-- The first row of the installs output on the concrete run. -/
def wInsRow0 : Row :=
  [("Date", .str "15/08/2025"), ("Installs", .num 1042),
   ("Platform", .str "Apple"), ("Stage", .str "Avec-Agence")]

/-! ## C1 -/

/-- C1 (counterexample to the claim as stated): the transform labels a
row dated on/after the cutoff with the French string "Avec-Agence", not
"With-Agency" — here the row dated 15/08/2025 (≥ 2025-07-15) carries
Stage "Avec-Agence", so the claim that Stage equals "With-Agency" on
such rows is false on the code. -/
theorem C1_counterexample :
    transformInstalls wInsApple wInsGoogle
      = .ok ⟨["Date", "Installs", "Platform", "Stage"],
             [[("Date", .str "15/08/2025"), ("Installs", .num 1042),
               ("Platform", .str "Apple"), ("Stage", .str "Avec-Agence")],
              [("Date", .str "16/08/2025"), ("Installs", .missing),
               ("Platform", .str "Google"), ("Stage", .str "Avec-Agence")]]⟩
    ∧ (∃ d, strptimeDDMMYYYY "15/08/2025" = some d ∧ Date.le agencyStartDate d = true)
    ∧ Cell.str "Avec-Agence" ≠ Cell.str "With-Agency" := by
  refine ⟨by rfl, ⟨⟨2025, 8, 15⟩, by rfl, by rfl⟩, by decide⟩

/-- C1 (amended): in every output table of the transform, every row's
Stage is one of the two French labels "Avec-Agence" / "Pré-Agence" (not
the English "With-Agency" / "Pre-Agency" the spec names), and Stage
equals "Avec-Agence" exactly when the row's canonical DD/MM/YYYY Date,
re-parsed, is on or after the configured cutoff 2025-07-15 (inclusive). -/
theorem C1_stage_label_iff_cutoff :
    ∀ (raw : RawData) (kw ins us : DataFrame),
      transformAllData raw = .ok (kw, ins, us) →
      ∀ df ∈ [kw, ins, us], ∀ r ∈ df.rows,
        (getVal r "Stage" = .str "Avec-Agence" ∨ getVal r "Stage" = .str "Pré-Agence")
        ∧ ((getVal r "Stage" = .str "Avec-Agence")
            ↔ ∃ s dd, getVal r "Date" = .str s ∧ strptimeDDMMYYYY s = some dd
                ∧ Date.le agencyStartDate dd = true) := by
  intro raw kw ins us h df hdf
  obtain ⟨hkw, hins, hus⟩ := transformAllData_rep h
  simp only [List.mem_cons, List.not_mem_nil, or_false] at hdf
  rcases hdf with rfl | rfl | rfl
  · obtain ⟨bsel, hsel, hfin⟩ := transformKeywords_rep hkw
    obtain ⟨hb, _⟩ := select_ok hsel
    have hD : bsel.cols.contains "Date" = true := by rw [hb]; rfl
    rw [hfin]
    exact tail_stage bsel hD
  · obtain ⟨bsel, hsel, hfin⟩ := transformInstalls_rep hins
    obtain ⟨hb, _⟩ := select_ok hsel
    have hD : bsel.cols.contains "Date" = true := by rw [hb]; rfl
    rw [hfin]
    exact tail_stage _ hD
  · obtain ⟨ac, gc, bsel, bdrop, _, _, hsel, hdrop, hfin⟩ := transformUsers_rep hus
    obtain ⟨hb, _⟩ := select_ok hsel
    obtain ⟨hb2, _⟩ := dropna_ok hdrop
    have hD : bdrop.cols.contains "Date" = true := by rw [hb2, hb]; rfl
    rw [hfin]
    exact tail_stage bdrop hD

theorem C1_witness :
    (getVal wInsRow0 "Stage" = .str "Avec-Agence"
      ∨ getVal wInsRow0 "Stage" = .str "Pré-Agence")
    ∧ ((getVal wInsRow0 "Stage" = .str "Avec-Agence")
        ↔ ∃ s dd, getVal wInsRow0 "Date" = .str s ∧ strptimeDDMMYYYY s = some dd
            ∧ Date.le agencyStartDate dd = true) :=
  C1_stage_label_iff_cutoff wRaw wKwOut wInsOut wUsersOut wEval wInsOut (by decide)
    wInsRow0 (by decide)

/-! ## C2 -/

/-- The Apple users raw table of the C2 counterexample: after the two
metadata rows, a data row with a parseable date but a missing
Active_Users value. -/
def c2UsersApple : DataFrame :=
  ⟨["Nom", "Courses U : Magasin en ligne"],
   [[("Nom", .str "Debut"), ("Courses U : Magasin en ligne", .missing)],
    [("Nom", .str "Fin"), ("Courses U : Magasin en ligne", .missing)],
    [("Nom", .str "05/01/2024"), ("Courses U : Magasin en ligne", .missing)]]⟩

/-- The (empty) Google users raw table of the C2 counterexample. -/
def c2UsersGoogle : DataFrame :=
  ⟨["Date",
    "Utilisateurs actifs par mois (UAM) (Utilisateurs uniques, Par intervalle, Quotidiennes)\u00A0: Tous les pays/régions",
    "Notes"], []⟩

/-- C2 (counterexample to the claim as stated): a users row whose Date
parses fine but whose Active_Users value is missing is dropped from the
output — the users output here is empty — contradicting the claim that
for every data type only rows with unparsable Dates are dropped and rows
with missing numeric fields are retained. -/
theorem C2_counterexample :
    transformUsers c2UsersApple c2UsersGoogle
      = .ok ⟨["Date", "Active_Users", "Platform", "Notes", "Stage"], []⟩
    ∧ toDatetime "05/01/2024" = some ⟨2024, 5, 1⟩ :=
  ⟨by rfl, by rfl⟩

/-- C2 (amended): the null policy is per data type. For installs, a row
whose renamed Date parses is retained, with its Installs value sent
through the numeric cleaner — a missing or unparsable Installs cell
becomes the explicit missing marker, never zero, and the row stays. For
keywords, rows of either platform (Apple and Google alike) with
parseable Dates are retained with every Rank cell carried over verbatim
(no numeric parsing occurs, so a missing cell stays missing but an
unparsable string also survives as-is). For users,
the claim fails: every output row has a non-missing Active_Users, since
rows with missing or unparsable Active_Users are dropped. -/
theorem C2_null_policy :
    ∀ (raw : RawData) (kw ins us : DataFrame),
      transformAllData raw = .ok (kw, ins, us) →
      ((∀ r0 ∈ raw.installsApple.rows, ∀ d : Date,
          "Date" ∈ (raw.installsApple.rename (getInstallsMapping "Apple")).cols →
          "Installs" ∈ (raw.installsApple.rename (getInstallsMapping "Apple")).cols →
          toDatetimeCell (getVal (renameRow (getInstallsMapping "Apple") r0) "Date")
            = .date d →
          ∃ row ∈ ins.rows,
            getVal row "Date" = .str (strftimeDDMMYYYY d)
            ∧ getVal row "Platform" = .str "Apple"
            ∧ getVal row "Installs"
                = cleanNumericCell
                    (getVal (renameRow (getInstallsMapping "Apple") r0) "Installs"))
       ∧ (∀ r0 ∈ raw.installsGoogle.rows, ∀ d : Date,
          "Date" ∈ (raw.installsGoogle.rename (getInstallsMapping "Google")).cols →
          "Installs" ∈ (raw.installsGoogle.rename (getInstallsMapping "Google")).cols →
          toDatetimeCell (getVal (renameRow (getInstallsMapping "Google") r0) "Date")
            = .date d →
          ∃ row ∈ ins.rows,
            getVal row "Date" = .str (strftimeDDMMYYYY d)
            ∧ getVal row "Platform" = .str "Google"
            ∧ getVal row "Installs"
                = cleanNumericCell
                    (getVal (renameRow (getInstallsMapping "Google") r0) "Installs")))
      ∧ ((∀ r0 ∈ raw.keywordsApple.rows, ∀ d : Date,
          "Date" ∈ (raw.keywordsApple.rename (getKeywordsMapping "Apple")).cols →
          toDatetimeCell (getVal (renameRow (getKeywordsMapping "Apple") r0) "Date")
            = .date d →
          ∃ row ∈ kw.rows,
            getVal row "Date" = .str (strftimeDDMMYYYY d)
            ∧ getVal row "Platform" = .str "Apple"
            ∧ ∀ c ∈ (["Rank_1", "Rank_2_3", "Rank_4_10", "Rank_11_30", "Rank_31_100",
                "Rank_100_Plus"] : List String),
                c ∈ (raw.keywordsApple.rename (getKeywordsMapping "Apple")).cols →
                getVal row c = getVal (renameRow (getKeywordsMapping "Apple") r0) c)
       ∧ (∀ r0 ∈ raw.keywordsGoogle.rows, ∀ d : Date,
          "Date" ∈ (raw.keywordsGoogle.rename (getKeywordsMapping "Google")).cols →
          toDatetimeCell (getVal (renameRow (getKeywordsMapping "Google") r0) "Date")
            = .date d →
          ∃ row ∈ kw.rows,
            getVal row "Date" = .str (strftimeDDMMYYYY d)
            ∧ getVal row "Platform" = .str "Google"
            ∧ ∀ c ∈ (["Rank_1", "Rank_2_3", "Rank_4_10", "Rank_11_30", "Rank_31_100",
                "Rank_100_Plus"] : List String),
                c ∈ (raw.keywordsGoogle.rename (getKeywordsMapping "Google")).cols →
                getVal row c = getVal (renameRow (getKeywordsMapping "Google") r0) c))
      ∧ (∀ row ∈ us.rows, (getVal row "Active_Users").isna = false) := by
  intro raw kw ins us h
  obtain ⟨hkw, hins, hus⟩ := transformAllData_rep h
  refine ⟨⟨?_, ?_⟩, ⟨?_, ?_⟩, ?_⟩
  · -- installs, Apple side
    intro r0 hr0 d hDc hIc hd
    obtain ⟨bsel, hsel, hfin⟩ := transformInstalls_rep hins
    obtain ⟨r1, hr1, hplat, hvals⟩ :=
      clean_mem_and_vals raw.installsApple (getInstallsMapping "Apple") "Apple" hr0
    obtain ⟨rc, hcm, hcv, _⟩ := concat_mem_and_vals _
      ((raw.installsGoogle.rename (getInstallsMapping "Google")).setCol "Platform"
        (fun _ => .str "Google")) (Or.inl hr1)
    have hsub := select_cols_sub hsel
    have hrcD : getVal rc "Date"
        = getVal (renameRow (getInstallsMapping "Apple") r0) "Date" := by
      rw [hcv "Date" (hsub "Date" (by decide)), hvals "Date" hDc (by decide)]
    have hrcI : getVal rc "Installs"
        = getVal (renameRow (getInstallsMapping "Apple") r0) "Installs" := by
      rw [hcv "Installs" (hsub "Installs" (by decide)), hvals "Installs" hIc (by decide)]
    have hrcP : getVal rc "Platform" = Cell.str "Apple" := by
      rw [hcv "Platform" (hsub "Platform" (by decide)), hplat]
    obtain ⟨row, hm, h1, h2, h3⟩ := installs_selected_retention hsel hcm
      (d := d) (by rw [hrcD]; exact hd)
    rw [hfin]
    exact ⟨row, hm, h1, by rw [h3, hrcP], by rw [h2, hrcI]⟩
  · -- installs, Google side
    intro r0 hr0 d hDc hIc hd
    obtain ⟨bsel, hsel, hfin⟩ := transformInstalls_rep hins
    obtain ⟨r1, hr1, hplat, hvals⟩ :=
      clean_mem_and_vals raw.installsGoogle (getInstallsMapping "Google") "Google" hr0
    obtain ⟨rc, hcm, hcv, _⟩ := concat_mem_and_vals
      ((raw.installsApple.rename (getInstallsMapping "Apple")).setCol "Platform"
        (fun _ => .str "Apple")) _ (Or.inr hr1)
    have hsub := select_cols_sub hsel
    have hrcD : getVal rc "Date"
        = getVal (renameRow (getInstallsMapping "Google") r0) "Date" := by
      rw [hcv "Date" (hsub "Date" (by decide)), hvals "Date" hDc (by decide)]
    have hrcI : getVal rc "Installs"
        = getVal (renameRow (getInstallsMapping "Google") r0) "Installs" := by
      rw [hcv "Installs" (hsub "Installs" (by decide)), hvals "Installs" hIc (by decide)]
    have hrcP : getVal rc "Platform" = Cell.str "Google" := by
      rw [hcv "Platform" (hsub "Platform" (by decide)), hplat]
    obtain ⟨row, hm, h1, h2, h3⟩ := installs_selected_retention hsel hcm
      (d := d) (by rw [hrcD]; exact hd)
    rw [hfin]
    exact ⟨row, hm, h1, by rw [h3, hrcP], by rw [h2, hrcI]⟩
  · -- keywords, Apple side
    intro r0 hr0 d hDc hd
    obtain ⟨bsel, hsel, hfin⟩ := transformKeywords_rep hkw
    obtain ⟨r1, hr1, hplat, hvals⟩ :=
      clean_mem_and_vals raw.keywordsApple (getKeywordsMapping "Apple") "Apple" hr0
    obtain ⟨rc, hcm, hcv, _⟩ := concat_mem_and_vals _
      ((raw.keywordsGoogle.rename (getKeywordsMapping "Google")).setCol "Platform"
        (fun _ => .str "Google")) (Or.inl hr1)
    have hsub := select_cols_sub hsel
    have hrcD : getVal rc "Date"
        = getVal (renameRow (getKeywordsMapping "Apple") r0) "Date" := by
      rw [hcv "Date" (hsub "Date" (by decide)), hvals "Date" hDc (by decide)]
    have hrcP : getVal rc "Platform" = Cell.str "Apple" := by
      rw [hcv "Platform" (hsub "Platform" (by decide)), hplat]
    obtain ⟨row, hm, h1, h2, h3⟩ := keywords_selected_retention hsel hcm
      (d := d) (by rw [hrcD]; exact hd)
    rw [hfin]
    refine ⟨row, hm, h1, by rw [h2, hrcP], ?_⟩
    intro c hc hcc
    rw [h3 c hc]
    have hcneq : ¬ c = "Platform" := by
      simp only [List.mem_cons, List.not_mem_nil, or_false] at hc
      rcases hc with rfl | rfl | rfl | rfl | rfl | rfl <;> decide
    have hcin : c ∈ ((getColumnsToKeep "keywords").filter (fun x => !(x == "Stage"))) := by
      simp only [List.mem_cons, List.not_mem_nil, or_false] at hc
      rcases hc with rfl | rfl | rfl | rfl | rfl | rfl <;> decide
    rw [hcv c (hsub c hcin), hvals c hcc hcneq]
  · -- keywords, Google side
    intro r0 hr0 d hDc hd
    obtain ⟨bsel, hsel, hfin⟩ := transformKeywords_rep hkw
    obtain ⟨r1, hr1, hplat, hvals⟩ :=
      clean_mem_and_vals raw.keywordsGoogle (getKeywordsMapping "Google") "Google" hr0
    obtain ⟨rc, hcm, hcv, _⟩ := concat_mem_and_vals
      ((raw.keywordsApple.rename (getKeywordsMapping "Apple")).setCol "Platform"
        (fun _ => .str "Apple")) _ (Or.inr hr1)
    have hsub := select_cols_sub hsel
    have hrcD : getVal rc "Date"
        = getVal (renameRow (getKeywordsMapping "Google") r0) "Date" := by
      rw [hcv "Date" (hsub "Date" (by decide)), hvals "Date" hDc (by decide)]
    have hrcP : getVal rc "Platform" = Cell.str "Google" := by
      rw [hcv "Platform" (hsub "Platform" (by decide)), hplat]
    obtain ⟨row, hm, h1, h2, h3⟩ := keywords_selected_retention hsel hcm
      (d := d) (by rw [hrcD]; exact hd)
    rw [hfin]
    refine ⟨row, hm, h1, by rw [h2, hrcP], ?_⟩
    intro c hc hcc
    rw [h3 c hc]
    have hcneq : ¬ c = "Platform" := by
      simp only [List.mem_cons, List.not_mem_nil, or_false] at hc
      rcases hc with rfl | rfl | rfl | rfl | rfl | rfl <;> decide
    have hcin : c ∈ ((getColumnsToKeep "keywords").filter (fun x => !(x == "Stage"))) := by
      simp only [List.mem_cons, List.not_mem_nil, or_false] at hc
      rcases hc with rfl | rfl | rfl | rfl | rfl | rfl <;> decide
    rw [hcv c (hsub c hcin), hvals c hcc hcneq]
  · -- users: Active_Users never missing in the output
    intro row hrow
    obtain ⟨ac, gc, bsel, bdrop, _, _, hsel, hdrop, hfin⟩ := transformUsers_rep hus
    obtain ⟨hb, _⟩ := select_ok hsel
    obtain ⟨hb2, _⟩ := dropna_ok hdrop
    have hD : bdrop.cols.contains "Date" = true := by rw [hb2, hb]; rfl
    rw [hfin] at hrow
    obtain ⟨ncols, r0, hnc, hr0, hrepr, _⟩ := tail_mem_rep bdrop hD row hrow
    have hAUm : "Active_Users" ∈ ncols := by
      refine (hnc "Active_Users").2 (Or.inl ?_)
      rw [hb2, hb]
      show ("Active_Users" : String)
        ∈ (getColumnsToKeep "users").filter (fun c => !(c == "Stage"))
      decide
    have hAUval : getVal row "Active_Users" = getVal r0 "Active_Users" := by
      rw [hrepr, getVal_setColRow_ne _ _ _ _ _ hAUm (by decide),
        getVal_mapColRow_ne _ _ _ _ (by decide),
        getVal_mapColRow_ne _ _ _ _ (by decide)]
    rw [hAUval]
    rw [hb2] at hr0
    have hr0f := hr0
    unfold DataFrame.filterNa at hr0f
    obtain ⟨_, hpred⟩ := List.mem_filter.1 hr0f
    simp only [List.all_cons, List.all_nil, Bool.and_true, Bool.and_eq_true] at hpred
    simpa using hpred.2

/-- The raw Google installs row of the concrete run. -/
def wInsGoogleRow : Row :=
  [("Date", .str "16/08/2025"), ("Installs Google Play", .str "abc")]

theorem C2_witness :
    ∃ row ∈ wInsOut.rows,
      getVal row "Date" = .str (strftimeDDMMYYYY ⟨2025, 8, 16⟩)
      ∧ getVal row "Platform" = .str "Google"
      ∧ getVal row "Installs"
          = cleanNumericCell
              (getVal (renameRow (getInstallsMapping "Google") wInsGoogleRow) "Installs") :=
  (C2_null_policy wRaw wKwOut wInsOut wUsersOut wEval).1.2 wInsGoogleRow (by decide)
    ⟨2025, 8, 16⟩ (by decide) (by decide) (by rfl)

/-! ## C3 -/

/-- C3 (confirmed): in every output table the rows are sorted: for every
adjacent pair, the Date strings re-parse as calendar dates with
`Date[i] <= Date[i+1]` chronologically, and for equal dates the Platform
strings compare `Platform[i] <= Platform[i+1]` in code-point order (so
the Apple row precedes the Google row). Stated under the hypothesis that
datetime cells of the raw tables are calendar-valid, which pandas
guarantees by construction. -/
theorem C3_sort_invariant :
    ∀ (raw : RawData) (kw ins us : DataFrame),
      RawData.datesOk raw = true →
      transformAllData raw = .ok (kw, ins, us) →
      ∀ df ∈ [kw, ins, us], df.rows.Chain' outRel := by
  intro raw kw ins us hok h df hdf
  obtain ⟨hkw, hins, hus⟩ := transformAllData_rep h
  simp only [RawData.datesOk, Bool.and_eq_true] at hok
  obtain ⟨⟨⟨⟨⟨hok1, hok2⟩, hok3⟩, hok4⟩, hok5⟩, hok6⟩ := hok
  simp only [List.mem_cons, List.not_mem_nil, or_false] at hdf
  rcases hdf with rfl | rfl | rfl
  · obtain ⟨bsel, hsel, hfin⟩ := transformKeywords_rep hkw
    have hrows := front_select_ok hsel (datesOk_rows hok1) (datesOk_rows hok2)
    obtain ⟨hb, _⟩ := select_ok hsel
    have hD : bsel.cols.contains "Date" = true := by rw [hb]; rfl
    have hP : bsel.cols.contains "Platform" = true := by rw [hb]; rfl
    rw [hfin]
    exact tail_chain bsel hD hP hrows
  · obtain ⟨bsel, hsel, hfin⟩ := transformInstalls_rep hins
    have hrows := front_select_ok hsel (datesOk_rows hok3) (datesOk_rows hok4)
    obtain ⟨hb, _⟩ := select_ok hsel
    have hD : bsel.cols.contains "Date" = true := by rw [hb]; rfl
    have hP : bsel.cols.contains "Platform" = true := by rw [hb]; rfl
    rw [hfin]
    refine tail_chain _ hD hP ?_
    refine allRows_map (allRows_map hrows ?_) ?_
    · intro r hr
      exact rowDatesOk_mapColRow _ _ (fun v _ => rfl) hr
    · intro r hr
      refine rowDatesOk_mapColRow _ _ (fun v hv => ?_) hr
      cases v with
      | str s => exact dateOk_pdToNumeric s
      | num n => exact hv
      | date d => exact hv
      | missing => exact hv
  · obtain ⟨ac, gc, bsel, bdrop, hac, hgc, hsel, hdrop, hfin⟩ := transformUsers_rep hus
    have hrows := users_select_ok hsel hdrop
      (cleanAppleUsers_rows_ok hac (datesOk_rows hok5))
      (cleanGoogleUsers_rows_ok hgc (datesOk_rows hok6))
    obtain ⟨hb, _⟩ := select_ok hsel
    obtain ⟨hb2, _⟩ := dropna_ok hdrop
    have hD : bdrop.cols.contains "Date" = true := by rw [hb2, hb]; rfl
    have hP : bdrop.cols.contains "Platform" = true := by rw [hb2, hb]; rfl
    rw [hfin]
    exact tail_chain bdrop hD hP hrows

theorem C3_witness :
    RawData.datesOk wRaw = true ∧ wInsOut.rows.Chain' outRel :=
  ⟨by rfl, C3_sort_invariant wRaw wKwOut wInsOut wUsersOut (by rfl) wEval wInsOut
    (by decide)⟩

/-! ## C7 -/

/-- C7 (confirmed): for each data type, the output table's column index
is exactly the canonical column set of that data type together with
Stage, in canonical order, and every output row carries exactly those
keys — no source-specific column survives and no canonical column is
missing. -/
theorem C7_schema_closure :
    ∀ (raw : RawData) (kw ins us : DataFrame),
      transformAllData raw = .ok (kw, ins, us) →
      (kw.cols = getColumnsToKeep "keywords"
        ∧ ∀ r ∈ kw.rows, r.map Prod.fst = kw.cols)
      ∧ (ins.cols = getColumnsToKeep "installs"
        ∧ ∀ r ∈ ins.rows, r.map Prod.fst = ins.cols)
      ∧ (us.cols = getColumnsToKeep "users"
        ∧ ∀ r ∈ us.rows, r.map Prod.fst = us.cols) := by
  intro raw kw ins us h
  obtain ⟨hkw, hins, hus⟩ := transformAllData_rep h
  refine ⟨?_, ?_, ?_⟩
  · obtain ⟨bsel, hsel, hfin⟩ := transformKeywords_rep hkw
    obtain ⟨hb, _⟩ := select_ok hsel
    have hD : bsel.cols.contains "Date" = true := by rw [hb]; rfl
    rw [hfin]
    obtain ⟨ncols, hdef, _, hcols, _⟩ := finishFrame_spec bsel hD
    refine ⟨?_, tail_keys bsel hD⟩
    rw [hcols, hdef, hb]
    rfl
  · obtain ⟨bsel, hsel, hfin⟩ := transformInstalls_rep hins
    obtain ⟨hb, _⟩ := select_ok hsel
    have hD : bsel.cols.contains "Date" = true := by rw [hb]; rfl
    rw [hfin]
    obtain ⟨ncols, hdef, _, hcols, _⟩ :=
      finishFrame_spec ((bsel.mapCol "Installs"
        (fun c => .str (stripSpaces (cellToPyStr c)))).mapCol "Installs"
        (fun c => match c with | .str s => pdToNumeric s | c => c)) hD
    refine ⟨?_, tail_keys _ hD⟩
    rw [hcols, hdef]
    show (if bsel.cols.contains "Stage" = true then bsel.cols
      else bsel.cols ++ ["Stage"]) = _
    rw [hb]
    rfl
  · obtain ⟨ac, gc, bsel, bdrop, _, _, hsel, hdrop, hfin⟩ := transformUsers_rep hus
    obtain ⟨hb, _⟩ := select_ok hsel
    obtain ⟨hb2, _⟩ := dropna_ok hdrop
    have hD : bdrop.cols.contains "Date" = true := by rw [hb2, hb]; rfl
    rw [hfin]
    obtain ⟨ncols, hdef, _, hcols, _⟩ := finishFrame_spec bdrop hD
    refine ⟨?_, tail_keys bdrop hD⟩
    rw [hcols, hdef, hb2, hb]
    rfl

theorem C7_witness :
    wKwOut.cols = getColumnsToKeep "keywords"
    ∧ ∀ r ∈ wKwOut.rows, r.map Prod.fst = wKwOut.cols :=
  (C7_schema_closure wRaw wKwOut wInsOut wUsersOut wEval).1

/-! ## C4 -/

/-- C4 (confirmed): the numeric cleaner strips every whitespace-class
character before parsing, so a count written with a regular space, a
non-breaking space (U+00A0) or a narrow no-break space (U+202F) as
thousands separator all clean to the number 1042; an input that is still
unparsable after stripping yields the explicit missing marker (the
cleaner is a total function — no cell can abort the table). -/
theorem C4_numeric_cleaning :
    cleanNumericCell (.str "1 042") = .num 1042
    ∧ cleanNumericCell (.str "1\u00A0042") = .num 1042
    ∧ cleanNumericCell (.str "1\u202F042") = .num 1042
    ∧ cleanNumericCell (.str "12abc") = .missing
    ∧ cleanNumericCell (.str "") = .missing :=
  ⟨rfl, rfl, rfl, rfl, rfl⟩

/-! ## C5 -/

/-- C5 (counterexample to the claim as stated): "xyz" is not one of the
twelve French month abbreviations, yet the French-locale parser does not
yield missing on "15 xyz 2024" — it substitutes the default month "01"
and produces 2024-01-15. -/
theorem C5_counterexample :
    frenchMonths.lookup "xyz" = none
    ∧ parseFrenchCell (.str "15 xyz 2024") = some ⟨2024, 1, 15⟩ :=
  ⟨rfl, rfl⟩

/-- C5 (amended): the French-locale parser strips periods and handles
all twelve abbreviations including the accented févr, déc and août; an
input that does not split into exactly three tokens yields missing, as
does a calendar-invalid date such as 31 févr.; but an unrecognized month
token in a three-token input does NOT yield missing — the table lookup
defaults to "01", silently producing a January date. -/
theorem C5_french_month_default :
    (parseFrenchCell (.str "1 janv. 2024") = some ⟨2024, 1, 1⟩
      ∧ parseFrenchCell (.str "15 févr. 2024") = some ⟨2024, 2, 15⟩
      ∧ parseFrenchCell (.str "15 mars 2024") = some ⟨2024, 3, 15⟩
      ∧ parseFrenchCell (.str "15 avr. 2024") = some ⟨2024, 4, 15⟩
      ∧ parseFrenchCell (.str "15 mai 2024") = some ⟨2024, 5, 15⟩
      ∧ parseFrenchCell (.str "15 juin 2024") = some ⟨2024, 6, 15⟩
      ∧ parseFrenchCell (.str "15 juil. 2024") = some ⟨2024, 7, 15⟩
      ∧ parseFrenchCell (.str "3 août 2025") = some ⟨2025, 8, 3⟩
      ∧ parseFrenchCell (.str "15 sept. 2024") = some ⟨2024, 9, 15⟩
      ∧ parseFrenchCell (.str "15 oct. 2024") = some ⟨2024, 10, 15⟩
      ∧ parseFrenchCell (.str "15 nov. 2024") = some ⟨2024, 11, 15⟩
      ∧ parseFrenchCell (.str "15 déc. 2024") = some ⟨2024, 12, 15⟩)
    ∧ (∀ s : String,
        (pysplit (String.mk (s.toList.filter (fun c => !(c == '.'))))).length ≠ 3 →
        parseSingleFrenchDate s = none)
    ∧ parseFrenchCell (.str "31 févr. 2024") = none
    ∧ (frenchMonths.lookup "xyz" = none
        ∧ parseFrenchCell (.str "15 xyz 2024") = some ⟨2024, 1, 15⟩) := by
  refine ⟨⟨rfl, rfl, rfl, rfl, rfl, rfl, rfl, rfl, rfl, rfl, rfl, rfl⟩, ?_, rfl, rfl, rfl⟩
  intro s h
  unfold parseSingleFrenchDate
  rcases hp : pysplit (String.mk (s.toList.filter (fun c => !(c == '.'))))
    with _ | ⟨a, _ | ⟨b, _ | ⟨c, _ | ⟨e, tl⟩⟩⟩⟩
  · rfl
  · rfl
  · rfl
  · exact absurd (by rw [hp]; rfl) h
  · rfl

theorem C5_witness :
    (pysplit (String.mk (("1 janv".toList.filter (fun c => !(c == '.')))))).length ≠ 3
    ∧ parseSingleFrenchDate "1 janv" = none :=
  ⟨by decide, (C5_french_month_default).2.1 "1 janv" (by decide)⟩

/-! ## C6 -/

/-- The Apple users raw table of the C6 scenario: two metadata rows,
then a data row whose Nom is a French-format date string. -/
def c6UsersApple : DataFrame :=
  ⟨["Nom", "Courses U : Magasin en ligne"],
   [[("Nom", .str "Debut"), ("Courses U : Magasin en ligne", .missing)],
    [("Nom", .str "Fin"), ("Courses U : Magasin en ligne", .missing)],
    [("Nom", .str "1 janv. 2024"), ("Courses U : Magasin en ligne", .num 100)]]⟩

/-- The same Apple users raw table with the date in a standard
slash-separated format instead. -/
def c6UsersAppleStd : DataFrame :=
  ⟨["Nom", "Courses U : Magasin en ligne"],
   [[("Nom", .str "Debut"), ("Courses U : Magasin en ligne", .missing)],
    [("Nom", .str "Fin"), ("Courses U : Magasin en ligne", .missing)],
    [("Nom", .str "01/01/2024"), ("Courses U : Magasin en ligne", .num 100)]]⟩

/-- C6 (counterexample to the claim as stated): on the claimed scenario
— Apple users table with two metadata rows and a data row with
Nom = "1 janv. 2024" and value 100 — the users output contains NO row at
all: Apple rows go through the standard date parser, which cannot parse
the French month name (only the Google branch uses the French parser),
so the data row's Date coerces to missing and the row is dropped. -/
theorem C6_counterexample :
    transformUsers c6UsersApple c2UsersGoogle
      = .ok ⟨["Date", "Active_Users", "Platform", "Notes", "Stage"], []⟩
    ∧ toDatetime "1 janv. 2024" = none
    ∧ parseFrenchCell (.str "1 janv. 2024") = some ⟨2024, 1, 1⟩ :=
  ⟨by rfl, rfl, rfl⟩

/-- C6 (amended): the metadata-row skipping works as claimed, but the
scenario only goes through with a standard-format Apple date: with
Nom = "01/01/2024" the users output contains exactly the row
Date "01/01/2024", Active_Users 100, Platform "Apple", Notes "" (and
Stage "Pré-Agence"); with the French-format "1 janv. 2024" the row is
dropped, because Apple rows never see the French-locale parser. -/
theorem C6_apple_users_scenario :
    transformUsers c6UsersAppleStd c2UsersGoogle
      = .ok ⟨["Date", "Active_Users", "Platform", "Notes", "Stage"],
             [[("Date", .str "01/01/2024"), ("Active_Users", .num 100),
               ("Platform", .str "Apple"), ("Notes", .str ""),
               ("Stage", .str "Pré-Agence")]]⟩
    ∧ transformUsers c6UsersApple c2UsersGoogle
      = .ok ⟨["Date", "Active_Users", "Platform", "Notes", "Stage"], []⟩ :=
  ⟨by rfl, by rfl⟩

/-! ## C8 -/

/-- A raw table with no columns and no rows. -/
def emptyFrame : DataFrame := ⟨[], []⟩

/-- C8 (counterexample to the claim as stated): with both keywords
source tables empty, `transform_all_data` does not report a per-data-type
failure and does not return the other two tables — it aborts with a
single uncontextualized key error, even though the installs and users
pipelines would each succeed on the very same inputs. -/
theorem C8_counterexample :
    transformAllData ⟨emptyFrame, emptyFrame, wInsApple, wInsGoogle,
        wUsersApple, wUsersGoogle⟩
      = .error "columns not in index: Date, Rank_1, Rank_2_3, Rank_4_10, Rank_11_30, Rank_31_100, Rank_100_Plus"
    ∧ transformInstalls wInsApple wInsGoogle = .ok wInsOut
    ∧ transformUsers wUsersApple wUsersGoogle = .ok wUsersOut :=
  ⟨by rfl, by rfl, by rfl⟩

/-- C8 (amended): a failure in one data type's pipeline is not contained
per data type: when the keywords pipeline fails, `transform_all_data`
propagates that very exception and aborts, so the installs and users
tables are never produced. -/
theorem C8_failure_aborts_all :
    ∀ (raw : RawData) (e : String),
      transformKeywords raw.keywordsApple raw.keywordsGoogle = .error e →
      transformAllData raw = .error e := by
  intro raw e h
  simp [transformAllData, h, Bind.bind, Except.bind]

theorem C8_witness :
    transformAllData ⟨emptyFrame, emptyFrame, wInsApple, wInsGoogle,
        wUsersApple, wUsersGoogle⟩
      = .error "columns not in index: Date, Rank_1, Rank_2_3, Rank_4_10, Rank_11_30, Rank_31_100, Rank_100_Plus" :=
  C8_failure_aborts_all _ _ (by rfl)

/-! ## C9 -/

/-- C9 (counterexample to the claim as stated): the Column Mapper does
not fail fast on unsupported pairs — an unknown data type yields the
empty column list, and an unknown platform silently receives Google's
mapping from both the installs and users getters. -/
theorem C9_counterexample :
    getColumnsToKeep "bogus" = ([] : List String)
    ∧ getInstallsMapping "Windows" = getInstallsMapping "Google"
    ∧ getUsersMapping "Windows" = getUsersMapping "Google" :=
  ⟨rfl, rfl, rfl⟩

/-- C9 (amended): the Column Mapper lookups are total and never raise:
`get_columns_to_keep` returns the empty list for every data type outside
the three supported ones (the dictionary `.get` default), every platform
other than "Apple" is treated as Google by the installs and users
getters, and the keywords mapping ignores its platform argument
entirely. -/
theorem C9_total_lookups :
    (∀ dt : String, ¬ dt = "keywords" → ¬ dt = "installs" → ¬ dt = "users" →
      getColumnsToKeep dt = [])
    ∧ (∀ p : String, ¬ p = "Apple" →
        getInstallsMapping p = getInstallsMapping "Google"
        ∧ getUsersMapping p = getUsersMapping "Google")
    ∧ (∀ p q : String, getKeywordsMapping p = getKeywordsMapping q) := by
  refine ⟨?_, ?_, fun p q => rfl⟩
  · intro dt h1 h2 h3
    have b1 : (dt == "keywords") = false := by simpa using h1
    have b2 : (dt == "installs") = false := by simpa using h2
    have b3 : (dt == "users") = false := by simpa using h3
    simp [getColumnsToKeep, STANDARD_COLUMNS, List.lookup, b1, b2, b3]
  · intro p hp
    have hb : (p == "Apple") = false := by simpa using hp
    constructor
    · simp [getInstallsMapping, hb]
    · simp [getUsersMapping, hb]

theorem C9_witness :
    getColumnsToKeep "bogus" = ([] : List String)
    ∧ getInstallsMapping "Windows" = getInstallsMapping "Google" :=
  ⟨C9_total_lookups.1 "bogus" (by decide) (by decide) (by decide),
   (C9_total_lookups.2.1 "Windows" (by decide)).1⟩

/-! ## C10 -/

/-- Whether the first list is a leading segment of the second. -/
def charsStartWith : List Char → List Char → Bool
  | [], _ => true
  | _ :: _, [] => false
  | a :: as, b :: bs => a == b && charsStartWith as bs

/-- Whether the first list occurs contiguously inside the second. -/
def charsContain (needle : List Char) : List Char → Bool
  | [] => needle.isEmpty
  | c :: t => charsStartWith needle (c :: t) || charsContain needle t

/-- A keywords raw table whose header lacks every expected column. -/
def c10KwBad : DataFrame := ⟨["Foo"], [[("Foo", .str "x")]]⟩

/-- C10 (counterexample to the claim as stated): schema drift does not
produce a MappingError naming the data type and platform. When both
platform tables lack the expected columns, the keywords transformation
aborts with a bare key error that lists only the missing canonical
columns — the words "keywords" and "Apple" appear nowhere in it. Worse,
when only one platform's table is malformed, nothing aborts at all: the
transform succeeds and the malformed platform's rows are silently
dropped (here Apple's row vanishes and only Google's survives). -/
theorem C10_counterexample :
    (transformKeywords c10KwBad c10KwBad
      = .error "columns not in index: Date, Rank_1, Rank_2_3, Rank_4_10, Rank_11_30, Rank_31_100, Rank_100_Plus"
      ∧ charsContain "Apple".toList
          "columns not in index: Date, Rank_1, Rank_2_3, Rank_4_10, Rank_11_30, Rank_31_100, Rank_100_Plus".toList = false
      ∧ charsContain "keywords".toList
          "columns not in index: Date, Rank_1, Rank_2_3, Rank_4_10, Rank_11_30, Rank_31_100, Rank_100_Plus".toList = false)
    ∧ transformKeywords c10KwBad wKwGoogle
      = .ok ⟨["Date", "Rank_1", "Rank_2_3", "Rank_4_10", "Rank_11_30", "Rank_31_100",
              "Rank_100_Plus", "Platform", "Stage"],
             [[("Date", .str "03/02/2025"), ("Rank_1", .num 3), ("Rank_2_3", .num 3),
               ("Rank_4_10", .num 3), ("Rank_11_30", .num 3), ("Rank_31_100", .num 3),
               ("Rank_100_Plus", .num 3), ("Platform", .str "Google"),
               ("Stage", .str "Pré-Agence")]]⟩ :=
  ⟨⟨by rfl, by rfl, by rfl⟩, by rfl⟩

/-- A users raw table whose header lacks every expected column. -/
def c10UsersBad : DataFrame := ⟨["Foo"], [[("Foo", .str "x")]]⟩

/-- C10 (amended): renaming silently skips source columns that are
absent, so for keywords (and installs) schema drift is only caught —
and only when a canonical column ends up missing from the concatenated
frame of both platforms — at column selection, which aborts with a key
error listing exactly the missing canonical columns and naming neither
the data type nor the platform; the users pipeline instead aborts per
platform before the concat: a drifted Apple table fails inside
`_clean_apple_users` at `dropna(subset=["Date", "Active_Users"])`, and
(once Apple cleans fine) a drifted Google table fails inside
`_clean_google_users` at the `["Date", "Active_Users", "Notes"]`
selection — each with a bare key error naming columns only; no
MappingError type exists anywhere in the code. -/
theorem C10_schema_drift_error :
    (∀ a g : DataFrame,
      (((getColumnsToKeep "keywords").filter (fun c => !(c == "Stage"))).all
        (((a.rename (getKeywordsMapping "Apple")).setCol "Platform"
            (fun _ => .str "Apple")).concat
          ((g.rename (getKeywordsMapping "Google")).setCol "Platform"
            (fun _ => .str "Google"))).cols.contains) = false →
      transformKeywords a g
        = .error ("columns not in index: " ++ String.intercalate ", "
            (((getColumnsToKeep "keywords").filter (fun c => !(c == "Stage"))).filter
              (fun c => !(((a.rename (getKeywordsMapping "Apple")).setCol "Platform"
                  (fun _ => .str "Apple")).concat
                ((g.rename (getKeywordsMapping "Google")).setCol "Platform"
                  (fun _ => .str "Google"))).cols.contains c))))
    ∧ (∀ a g : DataFrame,
      ((["Date", "Active_Users"] : List String).all
        (a.rename (getUsersMapping "Apple")).cols.contains) = false →
      transformUsers a g
        = .error ("dropna: columns missing from frame: " ++ String.intercalate ", "
            ((["Date", "Active_Users"] : List String).filter
              (fun c => !(a.rename (getUsersMapping "Apple")).cols.contains c))))
    ∧ (∀ a g : DataFrame,
      (∃ ac, cleanAppleUsers a = .ok ac) →
      ((["Date", "Active_Users", "Notes"] : List String).all
        (g.rename (getUsersMapping "Google")).cols.contains) = false →
      transformUsers a g
        = .error ("columns not in index: " ++ String.intercalate ", "
            ((["Date", "Active_Users", "Notes"] : List String).filter
              (fun c => !(g.rename (getUsersMapping "Google")).cols.contains c)))) := by
  refine ⟨?_, ?_, ?_⟩
  · intro a g hmiss
    simp only [transformKeywords, Bind.bind, Except.bind, DataFrame.select, hmiss]
    rfl
  · intro a g hmiss
    simp only [transformUsers, cleanAppleUsers, Bind.bind, Except.bind,
      DataFrame.dropna, hmiss]
    rfl
  · intro a g hok hmiss
    obtain ⟨ac, hac⟩ := hok
    simp only [transformUsers, cleanGoogleUsers, Bind.bind, Except.bind, hac,
      DataFrame.select, hmiss]
    rfl

theorem C10_witness :
    transformKeywords c10KwBad c10KwBad
      = .error ("columns not in index: " ++ String.intercalate ", "
          (((getColumnsToKeep "keywords").filter (fun c => !(c == "Stage"))).filter
            (fun c => !(((c10KwBad.rename (getKeywordsMapping "Apple")).setCol "Platform"
                (fun _ => .str "Apple")).concat
              ((c10KwBad.rename (getKeywordsMapping "Google")).setCol "Platform"
                (fun _ => .str "Google"))).cols.contains c)))
    ∧ transformUsers c10UsersBad c10UsersBad
      = .error ("dropna: columns missing from frame: " ++ String.intercalate ", "
          ((["Date", "Active_Users"] : List String).filter
            (fun c => !(c10UsersBad.rename (getUsersMapping "Apple")).cols.contains c)))
    ∧ transformUsers c6UsersAppleStd c10UsersBad
      = .error ("columns not in index: " ++ String.intercalate ", "
          ((["Date", "Active_Users", "Notes"] : List String).filter
            (fun c => !(c10UsersBad.rename (getUsersMapping "Google")).cols.contains c))) :=
  ⟨C10_schema_drift_error.1 c10KwBad c10KwBad (by rfl),
   C10_schema_drift_error.2.1 c10UsersBad c10UsersBad (by rfl),
   C10_schema_drift_error.2.2 c6UsersAppleStd c10UsersBad ⟨_, by rfl⟩ (by rfl)⟩

end AppASO
